import Mathlib

/-!
# Verification of the avito-pr-reviewer core

A shallow embedding of the reviewer-assignment service:

* id conversions (`internal/repository/postgres`): users are stored under
  integer serial keys and exposed as strings `"u<N>"`; pull requests as
  `"pr-<N>"` (`stringIDToInt`, `intToStringID`, `prStringIDToInt`,
  `prIntToStringID`).
* the reviewer selector (`internal/service/reviewer_selector.go`), with the
  `math/rand` source modelled as an injected draw function `Nat → Nat`.
* the repository layer over a relational store (`Store`), following the
  Postgres implementations and the schema of `migrations/000001_init.up.sql`
  (in particular the `UNIQUE (pull_request_id, reviewer_id)` constraint and
  the `NOT NULL DEFAULT CURRENT_TIMESTAMP` columns).
* the services (`pullRequestService`, `userService`, `teamService`).

Timestamps are abstracted to `Nat` (`Store.now` plays `time.Now()`).
Machine-integer overflow of `strconv.Atoi` is not modelled: database serial
ids are far below the `int64` bound.
-/

namespace AvitoPR

/-- Decidable equality of results, so that witnesses can be checked by
`decide`. -/
instance {ε α : Type} [DecidableEq ε] [DecidableEq α] :
    DecidableEq (Except ε α) := fun a b =>
  match a, b with
  | .error x, .error y =>
    if h : x = y then .isTrue (by rw [h])
    else .isFalse (fun hc => by cases hc; exact h rfl)
  | .ok x, .ok y =>
    if h : x = y then .isTrue (by rw [h])
    else .isFalse (fun hc => by cases hc; exact h rfl)
  | .error _, .ok _ => .isFalse (fun hc => by cases hc)
  | .ok _, .error _ => .isFalse (fun hc => by cases hc)

/-! ## Decimal digits: specification of `fmt.Sprintf("%d", n)` -/

/-- The value of a digit character (`c - '0'`). -/
def digitVal (c : Char) : Nat := c.toNat - 48

/-- Value of a decimal digit string, most significant digit first. -/
def digitsVal (cs : List Char) : Nat := cs.foldl (fun a c => a * 10 + digitVal c) 0

/-- The decimal digit characters of `n`, most significant first.  This is a
specification-side recursion; the embedding itself prints through
`Nat.toDigits`, which `natChars_eq_toDigits` relates to this function. -/
def natChars (n : Nat) : List Char :=
  if n < 10 then [Nat.digitChar n]
  else natChars (n / 10) ++ [Nat.digitChar (n % 10)]
  decreasing_by exact Nat.div_lt_self (by omega) (by omega)

theorem natChars_lt {n : Nat} (h : n < 10) : natChars n = [Nat.digitChar n] := by
  rw [natChars]; simp [h]

theorem natChars_ge {n : Nat} (h : ¬ n < 10) :
    natChars n = natChars (n / 10) ++ [Nat.digitChar (n % 10)] := by
  rw [natChars]; simp [h]

theorem digitVal_digitChar {k : Nat} (h : k < 10) : digitVal (Nat.digitChar k) = k := by
  interval_cases k <;> rfl

theorem isDigit_digitChar {k : Nat} (h : k < 10) : (Nat.digitChar k).isDigit = true := by
  interval_cases k <;> rfl

theorem digitsVal_append_singleton (cs : List Char) (c : Char) :
    digitsVal (cs ++ [c]) = digitsVal cs * 10 + digitVal c := by
  simp [digitsVal, List.foldl_append]

theorem natChars_ne_nil (n : Nat) : natChars n ≠ [] := by
  by_cases h : n < 10
  · rw [natChars_lt h]; simp
  · rw [natChars_ge h]; simp

theorem natChars_all_digits (n : Nat) : ∀ c ∈ natChars n, c.isDigit = true := by
  induction n using Nat.strong_induction_on with
  | _ n ih =>
    by_cases h : n < 10
    · rw [natChars_lt h]
      intro c hc
      simp at hc
      subst hc
      exact isDigit_digitChar h
    · rw [natChars_ge h]
      intro c hc
      rcases List.mem_append.1 hc with h1 | h2
      · exact ih (n / 10) (Nat.div_lt_self (by omega) (by omega)) c h1
      · simp at h2
        subst h2
        exact isDigit_digitChar (Nat.mod_lt _ (by omega))

theorem digitsVal_natChars (n : Nat) : digitsVal (natChars n) = n := by
  induction n using Nat.strong_induction_on with
  | _ n ih =>
    by_cases h : n < 10
    · rw [natChars_lt h]
      simp [digitsVal, digitVal_digitChar h]
    · rw [natChars_ge h, digitsVal_append_singleton,
        ih (n / 10) (Nat.div_lt_self (by omega) (by omega)),
        digitVal_digitChar (Nat.mod_lt _ (by omega))]
      omega

theorem natChars_injective : Function.Injective natChars := by
  intro a b h
  have := digitsVal_natChars a
  rw [h, digitsVal_natChars] at this
  omega

/-- `Nat.toDigits 10` (the printer behind `toString : Nat → String`) agrees
with the specification recursion `natChars`. -/
theorem toDigitsCore_eq (fuel n : Nat) (acc : List Char) (h : n < fuel) :
    Nat.toDigitsCore 10 fuel n acc = natChars n ++ acc := by
  induction fuel generalizing n acc with
  | zero => omega
  | succ f ih =>
    unfold Nat.toDigitsCore
    by_cases h10 : n / 10 = 0
    · have hn : n < 10 := by omega
      simp only [h10, if_true, eq_self_iff_true, natChars_lt hn]
      rw [Nat.mod_eq_of_lt hn]
      rfl
    · have hn : ¬ n < 10 := by
        intro hc
        have : n / 10 = 0 := Nat.div_eq_of_lt hc
        exact h10 this
      simp only [h10, if_false]
      rw [ih (n / 10) _ (by have := Nat.div_lt_self (show 0 < n by omega) (show 1 < 10 by omega); omega)]
      rw [natChars_ge hn, List.append_assoc]
      rfl

theorem natChars_eq_toDigits (n : Nat) : Nat.toDigits 10 n = natChars n := by
  have := toDigitsCore_eq (n + 1) n [] (by omega)
  simpa [Nat.toDigits] using this

theorem toString_nat_data (n : Nat) : (toString n).data = natChars n := by
  show (Nat.repr n).data = natChars n
  rw [Nat.repr, natChars_eq_toDigits]
  rfl

/-! ## Go `strings.TrimPrefix` and `strconv.Atoi` -/

/-- `strings.TrimPrefix(s, p)`: drop `p` from the front of `s` when it is a
prefix, otherwise return `s` unchanged. -/
def trimPrefix (p s : String) : String :=
  if p.data.isPrefixOf s.data then String.mk (s.data.drop p.data.length) else s

/-- Digits-only parse used by `atoi`: requires a non-empty all-digit string. -/
def parseDigits (cs : List Char) : Option Nat :=
  if cs ≠ [] ∧ cs.all (·.isDigit) then some (digitsVal cs) else none

/-- `strconv.Atoi`: an optional sign followed by at least one digit
(`int64` overflow is not modelled; see the module comment). -/
def atoi (s : String) : Option Int :=
  match s.data with
  | [] => none
  | c :: cs =>
    if c = '+' then (parseDigits cs).map Int.ofNat
    else if c = '-' then (parseDigits cs).map (fun n => -(n : Int))
    else (parseDigits (c :: cs)).map Int.ofNat

/-! ## id conversions (`user_repository.go`, `pullrequest_repository.go`) -/

/-- `stringIDToInt`: `strconv.Atoi(strings.TrimPrefix(stringID, "u"))`. -/
def stringIDToInt (stringID : String) : Option Int := atoi (trimPrefix "u" stringID)

/-- `intToStringID`: `fmt.Sprintf("u%d", id)`. -/
def intToStringID (id : Nat) : String := "u" ++ toString id

/-- `prStringIDToInt`: `strconv.Atoi(strings.TrimPrefix(stringID, "pr-"))`. -/
def prStringIDToInt (stringID : String) : Option Int := atoi (trimPrefix "pr-" stringID)

/-- `prIntToStringID`: `fmt.Sprintf("pr-%d", id)`. -/
def prIntToStringID (id : Nat) : String := "pr-" ++ toString id

theorem data_append (a b : String) : (a ++ b).data = a.data ++ b.data := rfl

theorem parseDigits_natChars (n : Nat) : parseDigits (natChars n) = some n := by
  rw [parseDigits, if_pos, digitsVal_natChars]
  exact ⟨natChars_ne_nil n, List.all_eq_true.2 fun c hc => natChars_all_digits n c hc⟩

theorem atoi_natChars (n : Nat) : atoi (String.mk (natChars n)) = some (n : Int) := by
  rcases hc : natChars n with _ | ⟨c, cs⟩
  · exact absurd hc (natChars_ne_nil n)
  · have hd : c.isDigit = true := by
      apply natChars_all_digits n
      rw [hc]; simp
    have hplus : ¬ c = '+' := by
      intro h; subst h; simp [Char.isDigit] at hd
    have hminus : ¬ c = '-' := by
      intro h; subst h; simp [Char.isDigit] at hd
    show atoi ⟨c :: cs⟩ = some (n : Int)
    rw [atoi]
    simp only [hplus, hminus, if_false]
    rw [← hc, parseDigits_natChars]
    rfl

theorem trimPrefix_u (cs : List Char) :
    trimPrefix "u" (String.mk ('u' :: cs)) = String.mk cs := by
  rw [trimPrefix, if_pos] <;> simp [List.isPrefixOf]

theorem trimPrefix_pr (cs : List Char) :
    trimPrefix "pr-" (String.mk ('p' :: 'r' :: '-' :: cs)) = String.mk cs := by
  rw [trimPrefix, if_pos] <;> simp [List.isPrefixOf]

theorem intToStringID_data (n : Nat) : (intToStringID n).data = 'u' :: natChars n := by
  rw [intToStringID, data_append, toString_nat_data]
  rfl

theorem prIntToStringID_data (n : Nat) :
    (prIntToStringID n).data = 'p' :: 'r' :: '-' :: natChars n := by
  rw [prIntToStringID, data_append, toString_nat_data]
  rfl

/-- Round trip: parsing a canonical user id recovers the database key. -/
theorem stringIDToInt_intToStringID (n : Nat) :
    stringIDToInt (intToStringID n) = some (n : Int) := by
  have h1 : intToStringID n = String.mk ('u' :: natChars n) := by
    apply String.ext
    rw [intToStringID_data]
  rw [stringIDToInt, h1, trimPrefix_u, atoi_natChars]

/-- Round trip: parsing a canonical pull-request id recovers the key. -/
theorem prStringIDToInt_prIntToStringID (n : Nat) :
    prStringIDToInt (prIntToStringID n) = some (n : Int) := by
  have h1 : prIntToStringID n = String.mk ('p' :: 'r' :: '-' :: natChars n) := by
    apply String.ext
    rw [prIntToStringID_data]
  rw [prStringIDToInt, h1, trimPrefix_pr, atoi_natChars]

theorem intToStringID_injective : Function.Injective intToStringID := by
  intro a b h
  have ha := stringIDToInt_intToStringID a
  rw [h, stringIDToInt_intToStringID] at ha
  exact ((by simpa using ha : b = a)).symm

theorem prIntToStringID_injective : Function.Injective prIntToStringID := by
  intro a b h
  have ha := prStringIDToInt_prIntToStringID a
  rw [h, prStringIDToInt_prIntToStringID] at ha
  exact ((by simpa using ha : b = a)).symm

/-! ## Domain model (`internal/domain`) -/

/-- `domain.Status`: closed two-state enum. -/
inductive Status where
  | OPEN : Status
  | MERGED : Status
deriving DecidableEq, Repr

/-- `domain.User`. -/
structure DUser where
  ID : String
  Username : String
  TeamID : Nat
  TeamName : String
  IsActive : Bool
  CreatedAt : Nat
  UpdatedAt : Option Nat
deriving DecidableEq, Repr

/-- `domain.PullRequest`. -/
structure PullRequest where
  ID : String
  Title : String
  AuthorID : String
  Status : Status
  AssignedReviewers : List String
  CreatedAt : Nat
  MergedAt : Option Nat
deriving DecidableEq, Repr

/-! ## Reviewer selector (`internal/service/reviewer_selector.go`)

`rand.Intn(i+1)` draws are injected as a function `d : Nat → Nat`; the draw
used at loop position `i` is `d i % (i+1)`, which ranges over `0..i` exactly
as `Intn` does. -/

/-- One slice swap `indices[i], indices[j] = indices[j], indices[i]`.
Out-of-range indices never occur in the shuffle loop. -/
def swapNth (l : List α) (i j : Nat) : List α :=
  match l.get? i, l.get? j with
  | some a, some b => (l.set i b).set j a
  | _, _ => l

/-- The `for i := len-1; i > 0; i--` Fisher-Yates loop body, counting down. -/
def fyAux (d : Nat → Nat) : List α → Nat → List α
  | l, 0 => l
  | l, i + 1 => fyAux d (swapNth l (i + 1) (d (i + 1) % (i + 2))) i

/-- The whole shuffle of `reviewer_selector.go` lines 34-41. -/
def fisherYates (l : List α) (d : Nat → Nat) : List α := fyAux d l (l.length - 1)

/-- `SelectReviewers(teamMembers, excludeUserID, maxReviewers)`: filters to
active members different from the excluded id, shuffles index positions, and
takes the first `min(len(candidates), maxReviewers)` of them. -/
def SelectReviewers (teamMembers : List DUser) (excludeUserID : String)
    (maxReviewers : Int) (d : Nat → Nat) : List String :=
  if maxReviewers ≤ 0 then []
  else
    let candidates := teamMembers.filter (fun u => u.IsActive && u.ID ≠ excludeUserID)
    if candidates.isEmpty then []
    else
      let count := min candidates.length maxReviewers.toNat
      let indices := fisherYates (List.range candidates.length) d
      ((indices.take count).filterMap candidates.get?).map (·.ID)

/-! ### Shuffle lemmas -/

theorem set_get_self (l : List α) (i : Nat) (a : α) (h : l.get? i = some a) :
    l.set i a = l := by
  induction l generalizing i with
  | nil => rfl
  | cons x xs ih =>
    cases i with
    | zero => simp at h; simp [List.set, h]
    | succ j =>
      simp at h
      simp [List.set, ih j (by rw [List.get?_eq_getElem?]; exact h)]

theorem swapNth_perm [DecidableEq α] (l : List α) (i j : Nat) :
    (swapNth l i j).Perm l := by
  rw [swapNth]
  rcases hi : l.get? i with _ | a
  · simp
  rcases hj : l.get? j with _ | b
  · simp
  simp only
  have hil : i < l.length := by
    rw [List.get?_eq_getElem?] at hi
    exact (List.getElem?_eq_some.1 hi).1
  have hjl : j < l.length := by
    rw [List.get?_eq_getElem?] at hj
    exact (List.getElem?_eq_some.1 hj).1
  have hia : l[i] = a := by
    rw [List.get?_eq_getElem?] at hi
    exact (List.getElem?_eq_some.1 hi).2
  have hjb : l[j] = b := by
    rw [List.get?_eq_getElem?] at hj
    exact (List.getElem?_eq_some.1 hj).2
  have hmem : a ∈ l := hia ▸ l.getElem_mem hil
  rw [List.perm_iff_count]
  intro x
  have hsb : (l.set i b)[j]? = some b := by
    rw [List.getElem?_set]
    by_cases hij : i = j
    · simp [hij, hjl]
    · simp [hij, List.getElem?_eq_some.2 ⟨hjl, hjb⟩]
  have hsjl : j < (l.set i b).length := by simpa using hjl
  have c2 := List.count_set a x (l.set i b) j hsjl
  have hsbj : (l.set i b)[j] = b := by
    have := List.getElem?_eq_some.1 hsb
    exact this.2
  have c1 := List.count_set b x l i hil
  rw [c2, hsbj, c1, hia]
  have hcount : a = x → 1 ≤ List.count x l := by
    intro hax
    subst hax
    exact List.count_pos_iff.2 hmem
  simp only [beq_iff_eq]
  by_cases hax : a = x
  · by_cases hbx : b = x
    · have hA := hcount hax
      rw [if_pos hax, if_pos hbx]
      omega
    · have hA := hcount hax
      rw [if_pos hax, if_neg hbx]
      omega
  · by_cases hbx : b = x
    · rw [if_neg hax, if_pos hbx]
      omega
    · rw [if_neg hax, if_neg hbx]
      omega

theorem fyAux_perm [DecidableEq α] (d : Nat → Nat) (i : Nat) (l : List α) :
    (fyAux d l i).Perm l := by
  induction i generalizing l with
  | zero => exact List.Perm.refl l
  | succ n ih =>
    exact (ih _).trans (swapNth_perm l (n + 1) (d (n + 1) % (n + 2)))

theorem fisherYates_perm [DecidableEq α] (l : List α) (d : Nat → Nat) :
    (fisherYates l d).Perm l := fyAux_perm d _ l

theorem fisherYates_range_lt (n : Nat) (d : Nat → Nat) :
    ∀ i ∈ fisherYates (List.range n) d, i < n := by
  intro i hi
  have := (fisherYates_perm (List.range n) d).mem_iff.1 hi
  exact List.mem_range.1 this

theorem fisherYates_range_nodup (n : Nat) (d : Nat → Nat) :
    (fisherYates (List.range n) d).Nodup := by
  exact ((fisherYates_perm (List.range n) d).nodup_iff).2 (List.nodup_range n)

theorem fisherYates_range_length (n : Nat) (d : Nat → Nat) :
    (fisherYates (List.range n) d).length = n := by
  simpa using (fisherYates_perm (List.range n) d).length_eq

/-- `filterMap get?` over in-range indices keeps every index. -/
theorem length_filterMap_get? (l : List α) (is : List Nat)
    (h : ∀ i ∈ is, i < l.length) : (is.filterMap l.get?).length = is.length := by
  induction is with
  | nil => rfl
  | cons i rest ih =>
    have hi : i < l.length := h i (by simp)
    have : l.get? i = some l[i] := by
      rw [List.get?_eq_getElem?]
      exact List.getElem?_eq_some.2 ⟨hi, rfl⟩
    rw [List.filterMap_cons, this]
    simp [ih (fun j hj => h j (by simp [hj]))]

theorem mem_filterMap_get? (l : List α) (is : List Nat) (x : α)
    (h : x ∈ is.filterMap l.get?) : x ∈ l := by
  rcases List.mem_filterMap.1 h with ⟨i, _, hget⟩
  rw [List.get?_eq_getElem?] at hget
  rcases List.getElem?_eq_some.1 hget with ⟨hlt, hx⟩
  exact hx ▸ l.getElem_mem hlt

/-- Distinct in-range positions of a list with `Nodup` ids give distinct ids. -/
theorem nodup_map_id_filterMap_get? (l : List DUser)
    (hl : (l.map (·.ID)).Nodup) (is : List Nat) (his : is.Nodup)
    (h : ∀ i ∈ is, i < l.length) :
    ((is.filterMap l.get?).map (·.ID)).Nodup := by
  induction is with
  | nil => simp
  | cons i rest ih =>
    have hi : i < l.length := h i (by simp)
    have hgi : l.get? i = some l[i] := by
      rw [List.get?_eq_getElem?]
      exact List.getElem?_eq_some.2 ⟨hi, rfl⟩
    rw [List.filterMap_cons, hgi]
    simp only [List.map_cons, List.nodup_cons]
    constructor
    · intro hmem
      rcases List.mem_map.1 hmem with ⟨u, hu, hid⟩
      rcases List.mem_filterMap.1 hu with ⟨j, hj, hget⟩
      have hjl : j < l.length := h j (by simp [hj])
      rw [List.get?_eq_getElem?] at hget
      have hju : l[j] = u := (List.getElem?_eq_some.1 hget).2
      have hij : i ≠ j := by
        intro hij
        subst hij
        exact (List.nodup_cons.1 his).1 hj
      have hil : i < (l.map (·.ID)).length := by simpa using hi
      have hjls : j < (l.map (·.ID)).length := by simpa using hjl
      have heq : (l.map (·.ID))[i] = (l.map (·.ID))[j] := by
        simp only [List.getElem_map]
        rw [hju, hid]
      exact hij (List.Nodup.getElem_inj_iff hl |>.1 heq)
    · exact ih (List.nodup_cons.1 his).2 (fun j hj => h j (by simp [hj]))

/-! ## Relational store (`migrations/000001_init.up.sql`)

Rows mirror the schema.  `updatedAt` columns are `NOT NULL DEFAULT
CURRENT_TIMESTAMP`, hence plain `Nat`.  The seeded `statuses` lookup table is
folded into a `Status` field.  Row order stands in for the `ORDER BY
created_at` of the queries; none of the verified properties depend on it. -/

/-- A `teams` row. -/
structure TeamRow where
  id : Nat
  name : String
  createdAt : Nat
  updatedAt : Nat
deriving DecidableEq, Repr

/-- A `users` row. -/
structure UserRow where
  id : Nat
  name : String
  teamId : Nat
  isActive : Bool
  createdAt : Nat
  updatedAt : Nat
deriving DecidableEq, Repr

/-- A `pull_requests` row. -/
structure PRRow where
  id : Nat
  title : String
  authorId : Nat
  status : Status
  createdAt : Nat
  updatedAt : Nat
deriving DecidableEq, Repr

/-- A `pull_request_reviewers` row. -/
structure ReviewerRow where
  prId : Nat
  reviewerId : Nat
  createdAt : Nat
deriving DecidableEq, Repr

/-- The database.  `nextPrId` is the `pull_requests` id sequence; `now` is the
abstract wall clock read by `time.Now()` during one operation. -/
structure Store where
  teams : List TeamRow
  users : List UserRow
  prs : List PRRow
  reviewers : List ReviewerRow
  nextPrId : Nat
  now : Nat
deriving DecidableEq, Repr

/-! ## Repository layer

Faithful to `internal/repository/postgres`; SQL errors are the Go
`err.Error()` strings the services dispatch on.  Constraint violations
(unique key, foreign key) surface as driver error strings distinct from all
of those. -/

/-- `userRepository.GetByID`: parse the id, `JOIN teams` (a user whose team
row is missing yields no row, i.e. `"user not found"`). -/
def userGetByID (s : Store) (id : String) : Except String DUser :=
  match stringIDToInt id with
  | none => .error "invalid user ID"
  | some dbID =>
    match s.users.find? (fun u => (u.id : Int) == dbID) with
    | none => .error "user not found"
    | some row =>
      match s.teams.find? (fun t => t.id == row.teamId) with
      | none => .error "user not found"
      | some t =>
        .ok { ID := intToStringID row.id, Username := row.name,
              TeamID := row.teamId, TeamName := t.name,
              IsActive := row.isActive, CreatedAt := row.createdAt,
              UpdatedAt := some row.updatedAt }

/-- `userRepository.GetByTeamID` (with the `JOIN teams`). -/
def userGetByTeamID (s : Store) (teamID : Nat) : List DUser :=
  (s.users.filter (fun u => u.teamId == teamID)).filterMap fun row =>
    (s.teams.find? (fun t => t.id == row.teamId)).map fun t =>
      { ID := intToStringID row.id, Username := row.name,
        TeamID := row.teamId, TeamName := t.name,
        IsActive := row.isActive, CreatedAt := row.createdAt,
        UpdatedAt := some row.updatedAt }

/-- `userRepository.SetIsActive`: `UPDATE users SET is_active, updated_at`;
zero rows affected is `"user not found"`. -/
def userSetIsActive (s : Store) (userID : String) (isActive : Bool) :
    Except String Store :=
  match stringIDToInt userID with
  | none => .error "invalid user ID"
  | some dbID =>
    if s.users.any (fun u => (u.id : Int) == dbID) then
      .ok { s with users := s.users.map fun u =>
              if (u.id : Int) == dbID then
                { u with isActive := isActive, updatedAt := s.now }
              else u }
    else .error "user not found"

/-- `teamRepository.GetByName` (the member list it also assembles is read
through `userGetByTeamID` by every consumer we verify). -/
def teamGetByName (s : Store) (name : String) : Except String TeamRow :=
  match s.teams.find? (fun t => t.name == name) with
  | none => .error "team not found"
  | some t => .ok t

/-- The row set produced by the `GetReviewersByPRID` query for the parsed
key `dbID`: links of that pull request joined against `users` and
`pull_requests`. -/
def reviewerStrings (s : Store) (dbID : Int) : List String :=
  (s.reviewers.filter (fun r => (r.prId : Int) == dbID)).filterMap fun r =>
    if s.users.any (fun u => u.id == r.reviewerId)
        && s.prs.any (fun p => (p.id : Int) == dbID) then
      some (intToStringID r.reviewerId)
    else none

/-- `pullRequestRepository.GetReviewersByPRID`: reviewer links of a pull
request, joined against `users` and `pull_requests`. -/
def getReviewersByPRID (s : Store) (prID : String) : Except String (List String) :=
  match prStringIDToInt prID with
  | none => .error "invalid pull request ID"
  | some dbID => .ok (reviewerStrings s dbID)

/-- `pullRequestRepository.GetByID`: `JOIN users` on the author and `JOIN
statuses`; `MergedAt` is the row's `updated_at` exactly when the status is
`MERGED`. -/
def prGetByID (s : Store) (id : String) : Except String PullRequest :=
  match prStringIDToInt id with
  | none => .error "invalid pull request ID"
  | some dbID =>
    match s.prs.find? (fun p => (p.id : Int) == dbID) with
    | none => .error "pull request not found"
    | some row =>
      match s.users.find? (fun u => u.id == row.authorId) with
      | none => .error "pull request not found"
      | some author =>
        match getReviewersByPRID s id with
        | .error e => .error e
        | .ok revs =>
          .ok { ID := prIntToStringID row.id, Title := row.title,
                AuthorID := intToStringID author.id, Status := row.status,
                AssignedReviewers := revs, CreatedAt := row.createdAt,
                MergedAt := if row.status = Status.MERGED then some row.updatedAt
                            else none }

/-- `pullRequestRepository.UpdateStatus`: `UPDATE pull_requests SET status_id,
updated_at WHERE id = $1 RETURNING id`; no row is `"pull request not found"`.
`updateTime` is `now` unless a merge timestamp is passed. -/
def prUpdateStatus (s : Store) (id : String) (status : Status)
    (mergedAt : Option Nat) : Except String Store :=
  match prStringIDToInt id with
  | none => .error "invalid pull request ID"
  | some dbID =>
    let updateTime := mergedAt.getD s.now
    if s.prs.any (fun p => (p.id : Int) == dbID) then
      .ok { s with prs := s.prs.map fun p =>
              if (p.id : Int) == dbID then
                { p with status := status, updatedAt := updateTime }
              else p }
    else .error "pull request not found"

/-- `pullRequestRepository.ReplaceReviewer`: checks the old link exists, then
`UPDATE pull_request_reviewers SET reviewer_id`.  The schema's
`UNIQUE (pull_request_id, reviewer_id)` rejects a replacement already linked
to the pull request, and the foreign key rejects an unknown user; both roll
the transaction back with a driver error. -/
def prReplaceReviewer (s : Store) (prID oldReviewerID newReviewerID : String) :
    Except String Store :=
  match prStringIDToInt prID with
  | none => .error "invalid pull request ID"
  | some prDbID =>
    match stringIDToInt oldReviewerID with
    | none => .error "invalid old reviewer ID"
    | some oldDbID =>
      match stringIDToInt newReviewerID with
      | none => .error "invalid new reviewer ID"
      | some newDbID =>
        if ¬ s.reviewers.any (fun r =>
            (r.prId : Int) == prDbID && (r.reviewerId : Int) == oldDbID) then
          .error "reviewer is not assigned to this PR"
        else if ¬ s.users.any (fun u => (u.id : Int) == newDbID) then
          .error "pq: foreign key violation on pull_request_reviewers"
        else if oldDbID ≠ newDbID && s.reviewers.any (fun r =>
            (r.prId : Int) == prDbID && (r.reviewerId : Int) == newDbID) then
          .error "pq: duplicate key value violates unique constraint"
        else
          .ok { s with reviewers := s.reviewers.map fun r =>
                  if (r.prId : Int) == prDbID && (r.reviewerId : Int) == oldDbID then
                    { r with reviewerId := newDbID.toNat }
                  else r }

/-- The reviewer-link insertion loop of `pullRequestRepository.Create`: each
reviewer id is parsed and checked against `users`; the unique key rejects a
duplicate link. -/
def insertReviewerLinks (users : List UserRow) (newId : Nat) (now : Nat) :
    List ReviewerRow → List String → Except String (List ReviewerRow)
  | rows, [] => .ok rows
  | rows, reviewerID :: rest =>
    match stringIDToInt reviewerID with
    | none => .error "invalid reviewer ID"
    | some rDbID =>
      if ¬ users.any (fun u => (u.id : Int) == rDbID) then
        .error "reviewer not found"
      else if rows.any (fun r =>
          r.prId == newId && (r.reviewerId : Int) == rDbID) then
        .error "pq: duplicate key value violates unique constraint"
      else
        insertReviewerLinks users newId now
          (rows ++ [{ prId := newId, reviewerId := rDbID.toNat, createdAt := now }])
          rest

/-- `pullRequestRepository.Create` (the serial-id variant): validates the
author, inserts the row under the sequence id (its caller-supplied `ID` field
is never stored), writes the generated `"pr-<id>"` back into the struct, then
links the reviewers.  Any failure rolls the transaction back. -/
def prCreate (s : Store) (pr : PullRequest) : Except String (PullRequest × Store) :=
  match stringIDToInt pr.AuthorID with
  | none => .error "invalid author ID"
  | some authorDbID =>
    if ¬ s.users.any (fun u => (u.id : Int) == authorDbID) then
      .error "author not found"
    else if s.prs.any (fun p => p.id == s.nextPrId) then
      .error "pq: duplicate key value violates unique constraint"
    else
      let newId := s.nextPrId
      let row : PRRow := { id := newId, title := pr.Title,
                           authorId := authorDbID.toNat, status := pr.Status,
                           createdAt := s.now, updatedAt := s.now }
      match insertReviewerLinks s.users newId s.now [] pr.AssignedReviewers with
      | .error e => .error e
      | .ok links =>
        .ok ({ pr with ID := prIntToStringID newId, CreatedAt := s.now },
             { s with prs := s.prs ++ [row],
                      reviewers := s.reviewers ++ links,
                      nextPrId := s.nextPrId + 1 })

/-! ## Domain errors (`internal/domain`, `part_016`) and services -/

/-- The closed error taxonomy of `domain.DomainError` plus the opaque
pass-through of unclassified storage errors. -/
inductive SvcError where
  | PRExists : SvcError
  | PRMerged : SvcError
  | NotAssigned : SvcError
  | NoCandidate : SvcError
  | TeamExists : SvcError
  | NotFound (resource : String) : SvcError
  | Internal (msg : String) : SvcError
deriving DecidableEq, Repr

/-- `pullRequestService.CreatePR`: duplicate check on the caller id, author
and team resolution, selection of up to 2 reviewers from the author's team,
then the repository write (which generates the stored id). -/
def CreatePR (s : Store) (prID title authorID : String) (d : Nat → Nat) :
    Except SvcError (PullRequest × Store) :=
  match prGetByID s prID with
  | .ok _ => .error SvcError.PRExists
  | .error e =>
    if e ≠ "pull request not found" ∧ e ≠ "invalid pull request ID" then
      .error (SvcError.Internal e)
    else
      match userGetByID s authorID with
      | .error e =>
        if e = "user not found" then
          .error (SvcError.NotFound ("user with id " ++ authorID))
        else .error (SvcError.Internal e)
      | .ok author =>
        match teamGetByName s author.TeamName with
        | .error e =>
          if e = "team not found" then
            .error (SvcError.NotFound ("team with name " ++ author.TeamName))
          else .error (SvcError.Internal e)
        | .ok team =>
          let teamMembers := userGetByTeamID s team.id
          let selectedReviewers := SelectReviewers teamMembers authorID 2 d
          let pr : PullRequest :=
            { ID := prID, Title := title, AuthorID := authorID,
              Status := Status.OPEN, AssignedReviewers := selectedReviewers,
              CreatedAt := s.now, MergedAt := none }
          match prCreate s pr with
          | .error e => .error (SvcError.Internal e)
          | .ok (created, s1) => .ok (created, s1)

/-- `pullRequestService.MergePR`: idempotent transition to `MERGED`. -/
def MergePR (s : Store) (prID : String) : Except SvcError (PullRequest × Store) :=
  match prGetByID s prID with
  | .error e =>
    if e = "pull request not found" then
      .error (SvcError.NotFound ("pull request with id " ++ prID))
    else .error (SvcError.Internal e)
  | .ok pr =>
    if pr.Status = Status.MERGED then .ok (pr, s)
    else
      match prUpdateStatus s prID Status.MERGED (some s.now) with
      | .error e =>
        if e = "pull request not found" then
          .error (SvcError.NotFound ("pull request with id " ++ prID))
        else .error (SvcError.Internal e)
      | .ok s1 =>
        match prGetByID s1 prID with
        | .error e =>
          if e = "pull request not found" then
            .error (SvcError.NotFound ("pull request with id " ++ prID))
          else .error (SvcError.Internal e)
        | .ok mergedPR => .ok (mergedPR, s1)

/-- `pullRequestService.ReassignReviewer`: replaces one assigned reviewer by
a selector pick from the *old reviewer's* team (`exclude = oldReviewerID`,
`limit = 1`). -/
def ReassignReviewer (s : Store) (prID oldReviewerID : String) (d : Nat → Nat) :
    Except SvcError (PullRequest × String × Store) :=
  match prGetByID s prID with
  | .error e =>
    if e = "pull request not found" then
      .error (SvcError.NotFound ("pull request with id " ++ prID))
    else .error (SvcError.Internal e)
  | .ok pr =>
    if pr.Status = Status.MERGED then .error SvcError.PRMerged
    else if ¬ pr.AssignedReviewers.contains oldReviewerID then
      .error SvcError.NotAssigned
    else
      match userGetByID s oldReviewerID with
      | .error e =>
        if e = "user not found" then
          .error (SvcError.NotFound ("user with id " ++ oldReviewerID))
        else .error (SvcError.Internal e)
      | .ok oldReviewer =>
        match teamGetByName s oldReviewer.TeamName with
        | .error e =>
          if e = "team not found" then
            .error (SvcError.NotFound ("team with name " ++ oldReviewer.TeamName))
          else .error (SvcError.Internal e)
        | .ok team =>
          let teamMembers := userGetByTeamID s team.id
          match SelectReviewers teamMembers oldReviewerID 1 d with
          | [] => .error SvcError.NoCandidate
          | newReviewerID :: _ =>
            match prReplaceReviewer s prID oldReviewerID newReviewerID with
            | .error e =>
              if e = "reviewer is not assigned to this PR" then
                .error SvcError.NotAssigned
              else .error (SvcError.Internal e)
            | .ok s1 =>
              match prGetByID s1 prID with
              | .error e =>
                if e = "pull request not found" then
                  .error (SvcError.NotFound ("pull request with id " ++ prID))
                else .error (SvcError.Internal e)
              | .ok updatedPR => .ok (updatedPR, newReviewerID, s1)

/-- `userService.SetIsActive`: existence check, flag update, re-read. -/
def SetIsActive (s : Store) (userID : String) (isActive : Bool) :
    Except SvcError (DUser × Store) :=
  match userGetByID s userID with
  | .error e =>
    if e = "user not found" then
      .error (SvcError.NotFound ("user with id " ++ userID))
    else .error (SvcError.Internal e)
  | .ok _ =>
    match userSetIsActive s userID isActive with
    | .error e =>
      if e = "user not found" then
        .error (SvcError.NotFound ("user with id " ++ userID))
      else .error (SvcError.Internal e)
    | .ok s1 =>
      match userGetByID s1 userID with
      | .error e =>
        if e = "user not found" then
          .error (SvcError.NotFound ("user with id " ++ userID))
        else .error (SvcError.Internal e)
      | .ok updatedUser => .ok (updatedUser, s1)

/-! ## `teamService.CreateTeam`

`CreateTeam` is settled against the service control flow alone
(`team_service_impl.go`), so the three repository calls it makes are
abstracted into the responses one execution observes: the name lookup before
the write, the write itself, and the read-back after the write.  This keeps
the concurrent-writer race expressible: the read-back may report any team
state, including one touched by a concurrent writer (non-null
`updated_at`). -/

/-- `domain.Team` as consumed by `CreateTeam` (the member list plays no role
in the verified behaviour). -/
structure DTeam where
  ID : Nat
  Name : String
  CreatedAt : Nat
  UpdatedAt : Option Nat
deriving DecidableEq, Repr

/-- The repository responses observed by one `CreateTeam` execution. -/
structure CreateTeamTrace where
  lookupBefore : Except String DTeam
  createResult : Option String
  lookupAfter : Except String DTeam

/-- `teamService.CreateTeam` over one execution trace. -/
def CreateTeam (tr : CreateTeamTrace) (team : DTeam) : Except SvcError DTeam :=
  match tr.lookupBefore with
  | .ok _ => .error SvcError.TeamExists
  | .error _ =>
    match tr.createResult with
    | some e => .error (SvcError.Internal e)
    | none =>
      match tr.lookupAfter with
      | .error e =>
        if e = "team not found" then
          .error (SvcError.NotFound ("team with name " ++ team.Name))
        else .error (SvcError.Internal e)
      | .ok createdTeam =>
        if createdTeam.UpdatedAt ≠ none then .error SvcError.TeamExists
        else .ok createdTeam

/-! ## Selector lemmas -/

/-- Unfolded form of the non-trivial selector branch. -/
theorem SelectReviewers_eq_of_pos (teamMembers : List DUser) (ex : String)
    (lim : Int) (d : Nat → Nat) (hlim : ¬ lim ≤ 0)
    (hne : ¬ (teamMembers.filter (fun u => u.IsActive && u.ID ≠ ex)).isEmpty) :
    SelectReviewers teamMembers ex lim d =
      (((fisherYates
          (List.range (teamMembers.filter (fun u => u.IsActive && u.ID ≠ ex)).length) d).take
            (min (teamMembers.filter (fun u => u.IsActive && u.ID ≠ ex)).length lim.toNat)).filterMap
          (teamMembers.filter (fun u => u.IsActive && u.ID ≠ ex)).get?).map (·.ID) := by
  rw [SelectReviewers, if_neg hlim, if_neg hne]

theorem SelectReviewers_mem (teamMembers : List DUser) (ex : String) (lim : Int)
    (d : Nat → Nat) (id : String) (h : id ∈ SelectReviewers teamMembers ex lim d) :
    id ≠ ex ∧ ∃ u ∈ teamMembers, u.ID = id ∧ u.IsActive = true := by
  by_cases hlim : lim ≤ 0
  · rw [SelectReviewers, if_pos hlim] at h
    simp at h
  · by_cases hne : (teamMembers.filter (fun u => u.IsActive && u.ID ≠ ex)).isEmpty
    · rw [SelectReviewers, if_neg hlim] at h
      simp only [hne, if_true] at h
      simp at h
    · rw [SelectReviewers_eq_of_pos teamMembers ex lim d hlim hne] at h
      rcases List.mem_map.1 h with ⟨u, hu, hid⟩
      have hmem := mem_filterMap_get? _ _ _ hu
      rcases List.mem_filter.1 hmem with ⟨humem, hprop⟩
      have hact : u.IsActive = true := by
        have := hprop
        simp only [Bool.and_eq_true, decide_eq_true_eq] at this
        exact this.1
      have hneq : u.ID ≠ ex := by
        have := hprop
        simp only [Bool.and_eq_true, decide_eq_true_eq] at this
        exact this.2
      exact ⟨hid ▸ hneq, u, humem, hid, hact⟩

theorem SelectReviewers_length_le (teamMembers : List DUser) (ex : String)
    (lim : Int) (d : Nat → Nat) :
    (SelectReviewers teamMembers ex lim d).length ≤ lim.toNat := by
  by_cases hlim : lim ≤ 0
  · rw [SelectReviewers, if_pos hlim]; simp
  · by_cases hne : (teamMembers.filter (fun u => u.IsActive && u.ID ≠ ex)).isEmpty
    · rw [SelectReviewers, if_neg hlim]
      simp only [hne, if_true]
      simp
    · rw [SelectReviewers_eq_of_pos teamMembers ex lim d hlim hne]
      rw [List.length_map]
      refine le_trans (List.length_filterMap_le _ _) ?_
      rw [List.length_take]
      exact le_trans (min_le_left _ _) (min_le_right _ _)

theorem SelectReviewers_length_eq (teamMembers : List DUser) (ex : String)
    (lim : Int) (d : Nat → Nat) (hlim : ¬ lim ≤ 0)
    (hne : ¬ (teamMembers.filter (fun u => u.IsActive && u.ID ≠ ex)).isEmpty) :
    (SelectReviewers teamMembers ex lim d).length =
      min (teamMembers.filter (fun u => u.IsActive && u.ID ≠ ex)).length lim.toNat := by
  set eligible := teamMembers.filter (fun u => u.IsActive && u.ID ≠ ex) with helig
  set n := eligible.length
  set count := min n lim.toNat with hcount
  rw [SelectReviewers_eq_of_pos teamMembers ex lim d hlim hne]
  rw [List.length_map]
  have hlt : ∀ i ∈ (fisherYates (List.range n) d).take count, i < n := fun i hi =>
    fisherYates_range_lt n d i (List.mem_of_mem_take hi)
  rw [length_filterMap_get? eligible _ hlt, List.length_take,
    fisherYates_range_length]
  omega

theorem SelectReviewers_nodup (teamMembers : List DUser) (ex : String)
    (lim : Int) (d : Nat → Nat)
    (hnodup : (teamMembers.map (·.ID)).Nodup) :
    (SelectReviewers teamMembers ex lim d).Nodup := by
  by_cases hlim : lim ≤ 0
  · rw [SelectReviewers, if_pos hlim]; simp
  · by_cases hne : (teamMembers.filter (fun u => u.IsActive && u.ID ≠ ex)).isEmpty
    · rw [SelectReviewers, if_neg hlim]
      simp only [hne, if_true]
      simp
    · rw [SelectReviewers_eq_of_pos teamMembers ex lim d hlim hne]
      set eligible := teamMembers.filter (fun u => u.IsActive && u.ID ≠ ex) with helig
      apply nodup_map_id_filterMap_get?
      · have hsub : (eligible.map (·.ID)).Sublist (teamMembers.map (·.ID)) :=
          (List.filter_sublist teamMembers).map (·.ID)
        exact hsub.nodup hnodup
      · exact (List.take_sublist _ _).nodup (fisherYates_range_nodup _ d)
      · exact fun i hi => fisherYates_range_lt _ d i (List.mem_of_mem_take hi)

theorem SelectReviewers_nonpos (teamMembers : List DUser) (ex : String)
    (lim : Int) (d : Nat → Nat) (hlim : lim ≤ 0) :
    SelectReviewers teamMembers ex lim d = [] := by
  rw [SelectReviewers, if_pos hlim]

theorem SelectReviewers_no_eligible (teamMembers : List DUser) (ex : String)
    (lim : Int) (d : Nat → Nat)
    (hne : (teamMembers.filter (fun u => u.IsActive && u.ID ≠ ex)).isEmpty) :
    SelectReviewers teamMembers ex lim d = [] := by
  by_cases hlim : lim ≤ 0
  · rw [SelectReviewers, if_pos hlim]
  · rw [SelectReviewers, if_neg hlim]
    simp only [hne, if_true]

/-! ## Claim C5 -/

/-- C5.  Selector contract: for every candidate list with pairwise-distinct
ids, every exclude id and every limit, `SelectReviewers` returns an empty
sequence when `limit <= 0` or no candidate is both active and different from
the exclude id (and, being a total function like its Go counterpart, it never
returns an error); otherwise it returns exactly `min(limit, |eligible|)` ids,
none equal to the exclude id, none belonging to an inactive candidate, and
with no duplicates. -/
theorem selectReviewers_contract (teamMembers : List DUser) (ex : String)
    (lim : Int) (d : Nat → Nat) (hnodup : (teamMembers.map (·.ID)).Nodup) :
    (lim ≤ 0 → SelectReviewers teamMembers ex lim d = []) ∧
    ((teamMembers.filter (fun u => u.IsActive && u.ID ≠ ex)).isEmpty →
      SelectReviewers teamMembers ex lim d = []) ∧
    (¬ lim ≤ 0 →
      ¬ (teamMembers.filter (fun u => u.IsActive && u.ID ≠ ex)).isEmpty →
      (SelectReviewers teamMembers ex lim d).length =
        min (teamMembers.filter (fun u => u.IsActive && u.ID ≠ ex)).length
          lim.toNat) ∧
    (∀ id ∈ SelectReviewers teamMembers ex lim d, id ≠ ex) ∧
    (∀ id ∈ SelectReviewers teamMembers ex lim d,
      ∃ u ∈ teamMembers, u.ID = id ∧ u.IsActive = true) ∧
    (SelectReviewers teamMembers ex lim d).Nodup := by
  refine ⟨fun h => SelectReviewers_nonpos _ _ _ _ h,
    fun h => SelectReviewers_no_eligible _ _ _ _ h,
    fun h1 h2 => SelectReviewers_length_eq _ _ _ _ h1 h2,
    fun id hid => (SelectReviewers_mem _ _ _ _ _ hid).1,
    fun id hid => (SelectReviewers_mem _ _ _ _ _ hid).2,
    SelectReviewers_nodup _ _ _ _ hnodup⟩

/-- Concrete witness candidates: an active excluded user, an inactive user,
and two active eligible users. -/
def wSelUsers : List DUser :=
  [{ ID := "u1", Username := "a", TeamID := 1, TeamName := "t", IsActive := true,
     CreatedAt := 0, UpdatedAt := none },
   { ID := "u2", Username := "b", TeamID := 1, TeamName := "t", IsActive := false,
     CreatedAt := 0, UpdatedAt := none },
   { ID := "u3", Username := "c", TeamID := 1, TeamName := "t", IsActive := true,
     CreatedAt := 0, UpdatedAt := none },
   { ID := "u4", Username := "e", TeamID := 1, TeamName := "t", IsActive := true,
     CreatedAt := 0, UpdatedAt := none }]

theorem selectReviewers_contract_witness :
    (wSelUsers.map (·.ID)).Nodup ∧
    ((2 : Int) ≤ 0 → SelectReviewers wSelUsers "u1" 2 (fun _ => 0) = []) ∧
    ((wSelUsers.filter (fun u => u.IsActive && u.ID ≠ "u1")).isEmpty →
      SelectReviewers wSelUsers "u1" 2 (fun _ => 0) = []) ∧
    (¬ (2 : Int) ≤ 0 →
      ¬ (wSelUsers.filter (fun u => u.IsActive && u.ID ≠ "u1")).isEmpty →
      (SelectReviewers wSelUsers "u1" 2 (fun _ => 0)).length =
        min (wSelUsers.filter (fun u => u.IsActive && u.ID ≠ "u1")).length
          (2 : Int).toNat) ∧
    (∀ id ∈ SelectReviewers wSelUsers "u1" 2 (fun _ => 0), id ≠ "u1") ∧
    (∀ id ∈ SelectReviewers wSelUsers "u1" 2 (fun _ => 0),
      ∃ u ∈ wSelUsers, u.ID = id ∧ u.IsActive = true) ∧
    (SelectReviewers wSelUsers "u1" 2 (fun _ => 0)).Nodup :=
  ⟨by decide, selectReviewers_contract wSelUsers "u1" 2 (fun _ => 0) (by decide)⟩

/-! ## Repository-level shape lemmas -/

theorem prGetByID_ok_iff (s : Store) (id : String) (pr : PullRequest) :
    prGetByID s id = .ok pr ↔ ∃ dbID row author,
      prStringIDToInt id = some dbID ∧
      s.prs.find? (fun p => (p.id : Int) == dbID) = some row ∧
      s.users.find? (fun u => u.id == row.authorId) = some author ∧
      pr = { ID := prIntToStringID row.id, Title := row.title,
             AuthorID := intToStringID author.id, Status := row.status,
             AssignedReviewers := reviewerStrings s dbID,
             CreatedAt := row.createdAt,
             MergedAt := if row.status = Status.MERGED then some row.updatedAt
                         else none } := by
  constructor
  · intro h
    rw [prGetByID] at h
    split at h
    · exact absurd h (by simp)
    · rename_i dbID hparse
      split at h
      · exact absurd h (by simp)
      · rename_i row hrow
        split at h
        · exact absurd h (by simp)
        · rename_i author hauthor
          split at h
          · rename_i e heq
            rw [getReviewersByPRID, hparse] at heq
            exact absurd heq (by simp)
          · rename_i revs hrevs
            rw [getReviewersByPRID, hparse] at hrevs
            have hr : revs = reviewerStrings s dbID := by
              cases hrevs
              rfl
            refine ⟨dbID, row, author, hparse, hrow, hauthor, ?_⟩
            cases h
            rw [hr]
  · rintro ⟨dbID, row, author, hparse, hrow, hauthor, hpr⟩
    subst hpr
    rw [prGetByID, hparse]
    simp only [hrow, hauthor, getReviewersByPRID, hparse]

theorem prUpdateStatus_ok_iff (s : Store) (id : String) (st : Status)
    (mergedAt : Option Nat) (s₁ : Store) :
    prUpdateStatus s id st mergedAt = .ok s₁ ↔ ∃ dbID,
      prStringIDToInt id = some dbID ∧
      s.prs.any (fun p => (p.id : Int) == dbID) = true ∧
      s₁ = { s with prs := s.prs.map fun p =>
               if (p.id : Int) == dbID then
                 { p with status := st, updatedAt := mergedAt.getD s.now }
               else p } := by
  constructor
  · intro h
    rw [prUpdateStatus] at h
    split at h
    · exact absurd h (by simp)
    · rename_i dbID hparse
      split at h
      · rename_i hany
        refine ⟨dbID, hparse, hany, ?_⟩
        cases h
        rfl
      · exact absurd h (by simp)
  · rintro ⟨dbID, hparse, hany, hs⟩
    subst hs
    rw [prUpdateStatus, hparse]
    simp only [hany, if_true]

/-- After a successful `UpdateStatus`, the row read back for the same id has
the written status, and `updated_at` holds the written time. -/
theorem find?_after_update (s : Store) (dbID : Int) (st : Status) (t : Nat)
    (row' : PRRow)
    (h : (s.prs.map fun p =>
            if (p.id : Int) == dbID then { p with status := st, updatedAt := t }
            else p).find? (fun p => (p.id : Int) == dbID) = some row') :
    row'.status = st ∧ row'.updatedAt = t := by
  rw [List.find?_map] at h
  rcases Option.map_eq_some'.1 h with ⟨row, hfind, hrow⟩
  have hpred := List.find?_some hfind
  simp only [Function.comp] at hpred
  by_cases hcond : ((row.id : Int) == dbID) = true
  · rw [if_pos hcond] at hrow hpred
    subst hrow
    exact ⟨rfl, rfl⟩
  · rw [if_neg hcond] at hrow hpred
    subst hrow
    exact absurd hpred hcond

/-! ## MergePR lemmas, claims C3 and C4 -/

theorem mergePR_of_merged (s : Store) (prID : String) (pr : PullRequest)
    (hget : prGetByID s prID = .ok pr) (hm : pr.Status = Status.MERGED) :
    MergePR s prID = .ok (pr, s) := by
  rw [MergePR, hget]
  simp only [hm, if_pos]

theorem mergePR_ok_elim (s : Store) (prID : String) (pr₁ : PullRequest)
    (s₁ : Store) (h : MergePR s prID = .ok (pr₁, s₁)) :
    (prGetByID s prID = .ok pr₁ ∧ pr₁.Status = Status.MERGED ∧ s₁ = s) ∨
    (∃ pr, prGetByID s prID = .ok pr ∧ pr.Status ≠ Status.MERGED ∧
      prUpdateStatus s prID Status.MERGED (some s.now) = .ok s₁ ∧
      prGetByID s₁ prID = .ok pr₁) := by
  rw [MergePR] at h
  split at h
  · split at h <;> exact absurd h (by simp)
  · rename_i pr hget
    split at h
    · rename_i hm
      left
      cases h
      exact ⟨hget, hm, rfl⟩
    · rename_i hm
      right
      split at h
      · split at h <;> exact absurd h (by simp)
      · rename_i s' hupd
        split at h
        · split at h <;> exact absurd h (by simp)
        · rename_i mergedPR hget2
          cases h
          exact ⟨pr, hget, hm, hupd, hget2⟩

theorem prGetByID_merged_mergedAt (s : Store) (id : String) (pr : PullRequest)
    (h : prGetByID s id = .ok pr) (hm : pr.Status = Status.MERGED) :
    pr.MergedAt ≠ none := by
  rcases (prGetByID_ok_iff s id pr).1 h with ⟨dbID, row, author, _, _, _, hpr⟩
  subst hpr
  simp only at hm ⊢
  rw [if_pos hm]
  simp

theorem getByID_after_updateStatus (s : Store) (prID : String) (s₁ : Store)
    (pr₁ : PullRequest)
    (hupd : prUpdateStatus s prID Status.MERGED (some s.now) = .ok s₁)
    (hget : prGetByID s₁ prID = .ok pr₁) :
    pr₁.Status = Status.MERGED ∧ pr₁.MergedAt = some s.now := by
  rcases (prUpdateStatus_ok_iff s prID Status.MERGED (some s.now) s₁).1 hupd
    with ⟨dbID, hparse, _, hs₁⟩
  rcases (prGetByID_ok_iff s₁ prID pr₁).1 hget
    with ⟨dbID', row', author, hparse', hrow', _, hpr₁⟩
  have hdb : dbID = dbID' := by
    rw [hparse] at hparse'
    exact Option.some_inj.1 hparse'
  rw [← hdb] at hrow' hpr₁
  subst hs₁
  simp only at hrow'
  rcases find?_after_update s dbID Status.MERGED ((some s.now).getD s.now)
    row' hrow' with ⟨hst, hupd'⟩
  subst hpr₁
  refine ⟨hst, ?_⟩
  simp only
  rw [hst, if_pos rfl, hupd']
  rfl

/-- C3.  `MergePR` is idempotent: an already-`MERGED` pull request is
returned unchanged with no error; and after any successful `MergePR`, calling
it again returns the very same pull request and the very same store (no state
change, no error), with status `MERGED` and a non-null merge timestamp on
both calls (the two calls return the same value, so both observe the same
status and timestamp). -/
theorem mergePR_idempotent (s : Store) (prID : String) :
    (∀ pr, prGetByID s prID = .ok pr → pr.Status = Status.MERGED →
      MergePR s prID = .ok (pr, s)) ∧
    (∀ pr₁ s₁, MergePR s prID = .ok (pr₁, s₁) →
      MergePR s₁ prID = .ok (pr₁, s₁) ∧ pr₁.Status = Status.MERGED ∧
      pr₁.MergedAt ≠ none) := by
  constructor
  · exact fun pr hget hm => mergePR_of_merged s prID pr hget hm
  · intro pr₁ s₁ h
    rcases mergePR_ok_elim s prID pr₁ s₁ h with
      ⟨hget, hm, hs⟩ | ⟨pr, hget, hm, hupd, hget2⟩
    · rw [hs]
      exact ⟨mergePR_of_merged s prID pr₁ hget hm, hm,
        prGetByID_merged_mergedAt s prID pr₁ hget hm⟩
    · rcases getByID_after_updateStatus s prID s₁ pr₁ hupd hget2 with ⟨hst, hma⟩
      refine ⟨mergePR_of_merged s₁ prID pr₁ hget2 hst, hst, ?_⟩
      rw [hma]
      simp

/-- Witness store for the merge claims: one open pull request `pr-1`. -/
def wMergeStore : Store :=
  { teams := [{ id := 1, name := "backend", createdAt := 0, updatedAt := 0 }],
    users := [{ id := 1, name := "Alice", teamId := 1, isActive := true,
                createdAt := 0, updatedAt := 0 }],
    prs := [{ id := 1, title := "t", authorId := 1, status := Status.OPEN,
              createdAt := 0, updatedAt := 0 }],
    reviewers := [], nextPrId := 2, now := 7 }

/-- The merged variant of `wMergeStore`, as produced by the first merge. -/
def wMergedStore : Store :=
  { wMergeStore with
    prs := [{ id := 1, title := "t", authorId := 1, status := Status.MERGED,
              createdAt := 0, updatedAt := 7 }] }

/-- The pull request returned by merging `pr-1` in `wMergeStore`. -/
def wMergedPR : PullRequest :=
  { ID := "pr-1", Title := "t", AuthorID := "u1", Status := Status.MERGED,
    AssignedReviewers := [], CreatedAt := 0, MergedAt := some 7 }

theorem mergePR_idempotent_witness :
    MergePR wMergeStore "pr-1" = .ok (wMergedPR, wMergedStore) ∧
    (MergePR wMergedStore "pr-1" = .ok (wMergedPR, wMergedStore) ∧
      wMergedPR.Status = Status.MERGED ∧ wMergedPR.MergedAt ≠ none) :=
  ⟨by decide, (mergePR_idempotent wMergeStore "pr-1").2 wMergedPR wMergedStore
    (by decide)⟩

/-- C4.  Once a pull request is `MERGED`, every `ReassignReviewer` call on it
fails with `AlreadyMerged`, whatever the old-reviewer argument and the random
draws; the check precedes every repository write, and in this embedding a
failing call returns no store, so the reviewer set and status are untouched. -/
theorem reassign_on_merged_fails (s : Store) (prID oldReviewerID : String)
    (d : Nat → Nat) (pr : PullRequest)
    (hget : prGetByID s prID = .ok pr) (hm : pr.Status = Status.MERGED) :
    ReassignReviewer s prID oldReviewerID d = .error SvcError.PRMerged := by
  rw [ReassignReviewer, hget]
  simp only [hm, if_pos]

theorem reassign_on_merged_fails_witness :
    prGetByID wMergedStore "pr-1" = .ok wMergedPR ∧
    wMergedPR.Status = Status.MERGED ∧
    ReassignReviewer wMergedStore "pr-1" "u1" (fun _ => 0) =
      .error SvcError.PRMerged :=
  ⟨by decide, by decide,
    reassign_on_merged_fails wMergedStore "pr-1" "u1" (fun _ => 0) wMergedPR
      (by decide) (by decide)⟩

/-! ## User-repository shape lemmas, claim C9 -/

theorem userGetByID_ok_iff (s : Store) (userID : String) (u : DUser) :
    userGetByID s userID = .ok u ↔ ∃ dbID row t,
      stringIDToInt userID = some dbID ∧
      s.users.find? (fun x => (x.id : Int) == dbID) = some row ∧
      s.teams.find? (fun x => x.id == row.teamId) = some t ∧
      u = { ID := intToStringID row.id, Username := row.name,
            TeamID := row.teamId, TeamName := t.name, IsActive := row.isActive,
            CreatedAt := row.createdAt, UpdatedAt := some row.updatedAt } := by
  constructor
  · intro h
    rw [userGetByID] at h
    split at h
    · exact absurd h (by simp)
    · rename_i dbID hparse
      split at h
      · exact absurd h (by simp)
      · rename_i row hrow
        split at h
        · exact absurd h (by simp)
        · rename_i t ht
          cases h
          exact ⟨dbID, row, t, hparse, hrow, ht, rfl⟩
  · rintro ⟨dbID, row, t, hparse, hrow, ht, hu⟩
    subst hu
    rw [userGetByID, hparse]
    simp only [hrow, ht]

theorem userSetIsActive_ok_iff (s : Store) (userID : String) (b : Bool)
    (s₁ : Store) :
    userSetIsActive s userID b = .ok s₁ ↔ ∃ dbID,
      stringIDToInt userID = some dbID ∧
      s.users.any (fun u => (u.id : Int) == dbID) = true ∧
      s₁ = { s with users := s.users.map fun u =>
               if (u.id : Int) == dbID then
                 { u with isActive := b, updatedAt := s.now }
               else u } := by
  constructor
  · intro h
    rw [userSetIsActive] at h
    split at h
    · exact absurd h (by simp)
    · rename_i dbID hparse
      split at h
      · rename_i hany
        cases h
        exact ⟨dbID, hparse, hany, rfl⟩
      · exact absurd h (by simp)
  · rintro ⟨dbID, hparse, hany, hs⟩
    subst hs
    rw [userSetIsActive, hparse]
    simp only [hany, if_true]

theorem setIsActive_ok_elim (s : Store) (userID : String) (b : Bool)
    (u' : DUser) (s₁ : Store) (h : SetIsActive s userID b = .ok (u', s₁)) :
    ∃ u₀, userGetByID s userID = .ok u₀ ∧
      userSetIsActive s userID b = .ok s₁ ∧
      userGetByID s₁ userID = .ok u' := by
  rw [SetIsActive] at h
  split at h
  · split at h <;> exact absurd h (by simp)
  · rename_i u₀ hget
    split at h
    · split at h <;> exact absurd h (by simp)
    · rename_i s' hset
      split at h
      · split at h <;> exact absurd h (by simp)
      · rename_i u₁ hget2
        cases h
        exact ⟨u₀, hget, hset, hget2⟩

/-- The update touches only the active flag and the modification timestamp of
the addressed row; every id is preserved. -/
theorem setIsActive_users_ids (s : Store) (dbID : Int) (b : Bool) :
    (s.users.map fun u =>
       if (u.id : Int) == dbID then { u with isActive := b, updatedAt := s.now }
       else u).map (·.id) = s.users.map (·.id) := by
  rw [List.map_map]
  apply List.map_congr_left
  intro u _
  by_cases hc : ((u.id : Int) == dbID) = true
  · rw [Function.comp, if_pos hc]
  · rw [Function.comp, if_neg hc]

theorem any_nat_id_after_setIsActive (s : Store) (dbID : Int) (k : Nat) (b : Bool) :
    (s.users.map fun u =>
       if (u.id : Int) == dbID then { u with isActive := b, updatedAt := s.now }
       else u).any (fun u => u.id == k) = s.users.any (fun u => u.id == k) := by
  rw [List.any_map]
  have hfun : ((fun u : UserRow => u.id == k) ∘ fun u =>
      if (u.id : Int) == dbID then { u with isActive := b, updatedAt := s.now }
      else u) = fun u : UserRow => u.id == k := by
    funext u
    by_cases hc : ((u.id : Int) == dbID) = true
    · rw [Function.comp, if_pos hc]
    · rw [Function.comp, if_neg hc]
  rw [hfun]

theorem reviewerStrings_after_setIsActive (s : Store) (dbID : Int) (b : Bool)
    (k : Int) :
    reviewerStrings
      { s with users := s.users.map fun u =>
          if (u.id : Int) == dbID then { u with isActive := b, updatedAt := s.now }
          else u } k = reviewerStrings s k := by
  rw [reviewerStrings, reviewerStrings]
  simp only
  apply List.filterMap_congr
  intro r _
  rw [any_nat_id_after_setIsActive]

/-- Reading any pull request is unaffected by a `SetIsActive` flag flip. -/
theorem prGetByID_after_setIsActive (s : Store) (dbID : Int) (b : Bool)
    (prID : String) :
    prGetByID
      { s with users := s.users.map fun u =>
          if (u.id : Int) == dbID then { u with isActive := b, updatedAt := s.now }
          else u } prID = prGetByID s prID := by
  rw [prGetByID, prGetByID]
  cases hparse : prStringIDToInt prID with
  | none => rfl
  | some k =>
    simp only
    cases hrow : s.prs.find? (fun p => (p.id : Int) == k) with
    | none => rfl
    | some row =>
      simp only
      rw [List.find?_map]
      have hpred : ((fun x : UserRow => x.id == row.authorId) ∘ fun u =>
          if (u.id : Int) == dbID then { u with isActive := b, updatedAt := s.now }
          else u) = fun x : UserRow => x.id == row.authorId := by
        funext u
        by_cases hc : ((u.id : Int) == dbID) = true
        · rw [Function.comp, if_pos hc]
        · rw [Function.comp, if_neg hc]
      rw [hpred]
      cases hauthor : s.users.find? (fun x => x.id == row.authorId) with
      | none => rfl
      | some author =>
        simp only [Option.map_some']
        rw [getReviewersByPRID, getReviewersByPRID, hparse]
        simp only
        rw [reviewerStrings_after_setIsActive]
        by_cases hc : ((author.id : Int) == dbID) = true
        · simp [hc]
        · simp [hc]

/-- C9.  `SetUserActive` frame property: a missing user yields `NotFound`
(and, the failing call returning no store, changes nothing); on success the
returned user carries the new flag, the only mutated rows are the addressed
user's active flag and its last-modified timestamp, and every pull request —
status, reviewer set, and all the rest of its stored state — reads back
exactly as before: deactivation never removes existing reviewer
assignments. -/
theorem setUserActive_frame (s : Store) (userID : String) (b : Bool) :
    (userGetByID s userID = .error "user not found" →
      SetIsActive s userID b =
        .error (SvcError.NotFound ("user with id " ++ userID))) ∧
    (∀ u' s₁, SetIsActive s userID b = .ok (u', s₁) →
      u'.IsActive = b ∧
      s₁.teams = s.teams ∧ s₁.prs = s.prs ∧ s₁.reviewers = s.reviewers ∧
      s₁.nextPrId = s.nextPrId ∧ s₁.users.map (·.id) = s.users.map (·.id) ∧
      (∃ dbID, stringIDToInt userID = some dbID ∧
        s₁.users = s.users.map fun u =>
          if (u.id : Int) == dbID then
            { u with isActive := b, updatedAt := s.now }
          else u) ∧
      (∀ prID, prGetByID s₁ prID = prGetByID s prID)) := by
  constructor
  · intro h
    rw [SetIsActive, h]
    simp
  · intro u' s₁ h
    rcases setIsActive_ok_elim s userID b u' s₁ h with ⟨u₀, _, hset, hget2⟩
    rcases (userSetIsActive_ok_iff s userID b s₁).1 hset with ⟨dbID, hparse, _, hs₁⟩
    have hact : u'.IsActive = b := by
      rcases (userGetByID_ok_iff s₁ userID u').1 hget2
        with ⟨dbID', row', t', hparse', hrow', _, hu'⟩
      have hdb : dbID = dbID' := by
        rw [hparse] at hparse'
        exact Option.some_inj.1 hparse'
      rw [← hdb] at hrow'
      rw [hs₁] at hrow'
      simp only at hrow'
      rw [List.find?_map] at hrow'
      rcases Option.map_eq_some'.1 hrow' with ⟨row, hfind, hrow⟩
      have hpred := List.find?_some hfind
      simp only [Function.comp] at hpred
      by_cases hc : ((row.id : Int) == dbID) = true
      · rw [if_pos hc] at hrow
        subst hrow
        rw [hu']
      · rw [if_neg hc] at hrow hpred
        subst hrow
        exact absurd hpred hc
    subst hs₁
    refine ⟨hact, rfl, rfl, rfl, rfl, setIsActive_users_ids s dbID b,
      ⟨dbID, hparse, rfl⟩, fun prID => prGetByID_after_setIsActive s dbID b prID⟩

/-- Witness store for C9: a user `u2` assigned as reviewer of an open pull
request. -/
def wFrameStore : Store :=
  { teams := [{ id := 1, name := "backend", createdAt := 0, updatedAt := 0 }],
    users := [{ id := 1, name := "Alice", teamId := 1, isActive := true,
                createdAt := 0, updatedAt := 0 },
              { id := 2, name := "Bob", teamId := 1, isActive := true,
                createdAt := 0, updatedAt := 0 }],
    prs := [{ id := 1, title := "t", authorId := 1, status := Status.OPEN,
              createdAt := 0, updatedAt := 0 }],
    reviewers := [{ prId := 1, reviewerId := 2, createdAt := 0 }],
    nextPrId := 2, now := 9 }

/-- The result of deactivating `u2` in `wFrameStore`. -/
def wFrameStoreAfter : Store :=
  { wFrameStore with
    users := [{ id := 1, name := "Alice", teamId := 1, isActive := true,
                createdAt := 0, updatedAt := 0 },
              { id := 2, name := "Bob", teamId := 1, isActive := false,
                createdAt := 0, updatedAt := 9 }] }

/-- The user returned by deactivating `u2` in `wFrameStore`. -/
def wFrameUser : DUser :=
  { ID := "u2", Username := "Bob", TeamID := 1, TeamName := "backend",
    IsActive := false, CreatedAt := 0, UpdatedAt := some 9 }

theorem setUserActive_frame_witness :
    SetIsActive wFrameStore "u2" false = .ok (wFrameUser, wFrameStoreAfter) ∧
    (wFrameUser.IsActive = false ∧
      wFrameStoreAfter.teams = wFrameStore.teams ∧
      wFrameStoreAfter.prs = wFrameStore.prs ∧
      wFrameStoreAfter.reviewers = wFrameStore.reviewers ∧
      wFrameStoreAfter.nextPrId = wFrameStore.nextPrId ∧
      wFrameStoreAfter.users.map (·.id) = wFrameStore.users.map (·.id) ∧
      (∃ dbID, stringIDToInt "u2" = some dbID ∧
        wFrameStoreAfter.users = wFrameStore.users.map fun u =>
          if (u.id : Int) == dbID then
            { u with isActive := false, updatedAt := wFrameStore.now }
          else u) ∧
      (∀ prID, prGetByID wFrameStoreAfter prID = prGetByID wFrameStore prID)) :=
  ⟨by decide, (setUserActive_frame wFrameStore "u2" false).2 wFrameUser
    wFrameStoreAfter (by decide)⟩

/-! ## Claim C8 -/

/-- C8.  `CreateTeam` failure discipline: a name that already resolves before
the call fails with `AlreadyExists`; every execution that reaches the
post-write read-back and sees a non-null last-modified timestamp (the
concurrent-writer signature) also fails with `AlreadyExists`; and the created
team is returned only when the read-back shows a null last-modified
timestamp. -/
theorem createTeam_alreadyExists (tr : CreateTeamTrace) (team : DTeam) :
    (∀ t, tr.lookupBefore = .ok t → CreateTeam tr team = .error SvcError.TeamExists) ∧
    (∀ e t, tr.lookupBefore = .error e → tr.createResult = none →
      tr.lookupAfter = .ok t → t.UpdatedAt ≠ none →
      CreateTeam tr team = .error SvcError.TeamExists) ∧
    (∀ t, CreateTeam tr team = .ok t →
      tr.lookupAfter = .ok t ∧ t.UpdatedAt = none) := by
  refine ⟨?_, ?_, ?_⟩
  · intro t h
    rw [CreateTeam, h]
  · intro e t hbefore hcreate hafter hupd
    rw [CreateTeam, hbefore, hcreate, hafter]
    simp only
    rw [if_pos hupd]
  · intro t h
    rw [CreateTeam] at h
    split at h
    · exact absurd h (by simp)
    · split at h
      · exact absurd h (by simp)
      · split at h
        · split at h <;> exact absurd h (by simp)
        · rename_i created hafter
          split at h
          · exact absurd h (by simp)
          · rename_i hupd
            cases h
            rw [not_not] at hupd
            exact ⟨hafter, hupd⟩

/-- Witness team read back by a clean first creation. -/
def wTeamClean : DTeam := { ID := 1, Name := "backend", CreatedAt := 3, UpdatedAt := none }

/-- Witness team read back after a concurrent update. -/
def wTeamRaced : DTeam := { ID := 1, Name := "backend", CreatedAt := 3, UpdatedAt := some 4 }

/-- Witness team that already existed before the call. -/
def wTeamBefore : DTeam := { ID := 1, Name := "backend", CreatedAt := 1, UpdatedAt := none }

/-- Witness trace of a clean first creation (null re-read timestamp). -/
def wTraceClean : CreateTeamTrace :=
  { lookupBefore := .error "team not found", createResult := none,
    lookupAfter := .ok wTeamClean }

/-- Witness trace in which the read-back shows a concurrent update. -/
def wTraceRaced : CreateTeamTrace :=
  { lookupBefore := .error "team not found", createResult := none,
    lookupAfter := .ok wTeamRaced }

/-- Witness trace in which the team already existed before the call. -/
def wTraceExisting : CreateTeamTrace :=
  { lookupBefore := .ok wTeamBefore, createResult := none,
    lookupAfter := .ok wTeamBefore }

/-- The team supplied to the witness calls. -/
def wTeamArg : DTeam := { ID := 0, Name := "backend", CreatedAt := 0, UpdatedAt := none }

theorem createTeam_alreadyExists_witness :
    (wTraceExisting.lookupBefore = .ok wTeamBefore ∧
      CreateTeam wTraceExisting wTeamArg = .error SvcError.TeamExists) ∧
    (wTraceRaced.lookupBefore = .error "team not found" ∧
      wTraceRaced.createResult = none ∧
      wTraceRaced.lookupAfter = .ok wTeamRaced ∧ wTeamRaced.UpdatedAt ≠ none ∧
      CreateTeam wTraceRaced wTeamArg = .error SvcError.TeamExists) ∧
    (CreateTeam wTraceClean wTeamArg = .ok wTeamClean ∧
      wTraceClean.lookupAfter = .ok wTeamClean ∧ wTeamClean.UpdatedAt = none) :=
  ⟨⟨by decide, (createTeam_alreadyExists wTraceExisting wTeamArg).1 wTeamBefore
      (by decide)⟩,
   ⟨by decide, by decide, by decide, by decide,
     (createTeam_alreadyExists wTraceRaced wTeamArg).2.1 "team not found"
       wTeamRaced (by decide) (by decide) (by decide) (by decide)⟩,
   ⟨by decide,
     ((createTeam_alreadyExists wTraceClean wTeamArg).2.2 wTeamClean (by decide)).1,
     ((createTeam_alreadyExists wTraceClean wTeamArg).2.2 wTeamClean (by decide)).2⟩⟩

/-! ## CreatePR elimination lemmas, claim C10 -/

theorem prCreate_ok_elim (s : Store) (pr : PullRequest) (pr' : PullRequest)
    (s' : Store) (h : prCreate s pr = .ok (pr', s')) :
    ∃ authorDbID links,
      stringIDToInt pr.AuthorID = some authorDbID ∧
      s.users.any (fun u => (u.id : Int) == authorDbID) = true ∧
      s.prs.any (fun p => p.id == s.nextPrId) = false ∧
      insertReviewerLinks s.users s.nextPrId s.now [] pr.AssignedReviewers =
        .ok links ∧
      pr' = { pr with ID := prIntToStringID s.nextPrId, CreatedAt := s.now } ∧
      s' = { s with
             prs := s.prs ++ [{ id := s.nextPrId, title := pr.Title,
                                authorId := authorDbID.toNat, status := pr.Status,
                                createdAt := s.now, updatedAt := s.now }],
             reviewers := s.reviewers ++ links,
             nextPrId := s.nextPrId + 1 } := by
  rw [prCreate] at h
  split at h
  · exact absurd h (by simp)
  · rename_i authorDbID hparse
    split at h
    · exact absurd h (by simp)
    · rename_i hne
      rw [not_not] at hne
      split at h
      · exact absurd h (by simp)
      · rename_i hfresh
        dsimp only at h
        split at h
        · exact absurd h (by simp)
        · rename_i links hlinks
          cases h
          exact ⟨authorDbID, links, hparse, hne,
            Bool.not_eq_true _ ▸ hfresh, hlinks, rfl, rfl⟩

theorem createPR_ok_elim (s : Store) (prID title authorID : String)
    (d : Nat → Nat) (pr' : PullRequest) (s' : Store)
    (h : CreatePR s prID title authorID d = .ok (pr', s')) :
    ∃ e author team,
      prGetByID s prID = .error e ∧
      userGetByID s authorID = .ok author ∧
      teamGetByName s author.TeamName = .ok team ∧
      prCreate s
        { ID := prID, Title := title, AuthorID := authorID,
          Status := Status.OPEN,
          AssignedReviewers :=
            SelectReviewers (userGetByTeamID s team.id) authorID 2 d,
          CreatedAt := s.now, MergedAt := none } = .ok (pr', s') := by
  rw [CreatePR] at h
  split at h
  · exact absurd h (by simp)
  · rename_i e hget
    split at h
    · exact absurd h (by simp)
    · split at h
      · split at h <;> exact absurd h (by simp)
      · rename_i author hauthor
        split at h
        · split at h <;> exact absurd h (by simp)
        · rename_i team hteam
          dsimp only at h
          split at h
          · exact absurd h (by simp)
          · rename_i created s₁ hcreate
            cases h
            exact ⟨e, author, team, hget, hauthor, hteam, hcreate⟩

theorem createPR_exists_fails (s : Store) (prID title authorID : String)
    (d : Nat → Nat) (pr₀ : PullRequest) (h : prGetByID s prID = .ok pr₀) :
    CreatePR s prID title authorID d = .error SvcError.PRExists := by
  rw [CreatePR, h]

/-- C10.  The stored pull-request id is generated by the store: the
`AlreadyExists` duplicate check runs against the caller-supplied id, but on
success the persisted and returned id is `"pr-"` followed by the store's
serial (`nextPrId`), written back over the input struct, and the table gains
exactly that key — the caller-supplied id is never itself stored. -/
theorem createPR_id_store_generated (s : Store) (prID title authorID : String)
    (d : Nat → Nat) :
    (∀ pr₀, prGetByID s prID = .ok pr₀ →
      CreatePR s prID title authorID d = .error SvcError.PRExists) ∧
    (∀ pr' s', CreatePR s prID title authorID d = .ok (pr', s') →
      pr'.ID = prIntToStringID s.nextPrId ∧
      s'.prs.map (·.id) = s.prs.map (·.id) ++ [s.nextPrId]) := by
  constructor
  · exact fun pr₀ h => createPR_exists_fails s prID title authorID d pr₀ h
  · intro pr' s' h
    rcases createPR_ok_elim s prID title authorID d pr' s' h with
      ⟨e, author, team, _, _, _, hcreate⟩
    rcases prCreate_ok_elim s _ pr' s' hcreate with
      ⟨authorDbID, links, _, _, _, _, hpr', hs'⟩
    subst hpr'
    subst hs'
    simp

/-- Witness call for C10: the caller asks for id `pr-99`; the store persists
and returns `pr-2`. -/
def wC10PR : PullRequest :=
  { ID := "pr-2", Title := "feat", AuthorID := "u1", Status := Status.OPEN,
    AssignedReviewers := [], CreatedAt := 7, MergedAt := none }

/-- The store after the witness creation. -/
def wC10StoreAfter : Store :=
  { wMergeStore with
    prs := wMergeStore.prs ++ [{ id := 2, title := "feat", authorId := 1,
                                 status := Status.OPEN, createdAt := 7,
                                 updatedAt := 7 }],
    nextPrId := 3 }

theorem createPR_id_store_generated_witness :
    (prGetByID wMergeStore "pr-1" =
        .ok { ID := "pr-1", Title := "t", AuthorID := "u1",
              Status := Status.OPEN, AssignedReviewers := [], CreatedAt := 0,
              MergedAt := none } ∧
      CreatePR wMergeStore "pr-1" "feat" "u1" (fun _ => 0) =
        .error SvcError.PRExists) ∧
    (CreatePR wMergeStore "pr-99" "feat" "u1" (fun _ => 0) =
        .ok (wC10PR, wC10StoreAfter) ∧
      wC10PR.ID = prIntToStringID wMergeStore.nextPrId ∧
      wC10StoreAfter.prs.map (·.id) =
        wMergeStore.prs.map (·.id) ++ [wMergeStore.nextPrId]) :=
  ⟨⟨by decide,
     (createPR_id_store_generated wMergeStore "pr-1" "feat" "u1" (fun _ => 0)).1
       { ID := "pr-1", Title := "t", AuthorID := "u1", Status := Status.OPEN,
         AssignedReviewers := [], CreatedAt := 0, MergedAt := none } (by decide)⟩,
   ⟨by decide,
     (createPR_id_store_generated wMergeStore "pr-99" "feat" "u1"
       (fun _ => 0)).2 wC10PR wC10StoreAfter (by decide)⟩⟩

/-! ## Claim C6 -/

theorem createPR_author_notFound (s : Store) (prID title authorID : String)
    (d : Nat → Nat) (e : String) (hget : prGetByID s prID = .error e)
    (he : e = "pull request not found" ∨ e = "invalid pull request ID")
    (hauthor : userGetByID s authorID = .error "user not found") :
    CreatePR s prID title authorID d =
      .error (SvcError.NotFound ("user with id " ++ authorID)) := by
  rw [CreatePR, hget]
  dsimp only
  rw [if_neg (by rcases he with he | he <;> simp [he])]
  rw [hauthor]
  simp

theorem createPR_team_notFound (s : Store) (prID title authorID : String)
    (d : Nat → Nat) (e : String) (author : DUser)
    (hget : prGetByID s prID = .error e)
    (he : e = "pull request not found" ∨ e = "invalid pull request ID")
    (hauthor : userGetByID s authorID = .ok author)
    (hteam : teamGetByName s author.TeamName = .error "team not found") :
    CreatePR s prID title authorID d =
      .error (SvcError.NotFound ("team with name " ++ author.TeamName)) := by
  rw [CreatePR, hget]
  dsimp only
  rw [if_neg (by rcases he with he | he <;> simp [he])]
  rw [hauthor]
  dsimp only
  rw [hteam]
  simp

/-- A user the directory resolves by id exists as a row, so the repository
existence probes on its database key answer `true`. -/
theorem userGetByID_ok_any (s : Store) (authorID : String) (author : DUser)
    (dbID : Int) (h : userGetByID s authorID = .ok author)
    (hparse : stringIDToInt authorID = some dbID) :
    s.users.any (fun u => (u.id : Int) == dbID) = true := by
  rcases (userGetByID_ok_iff s authorID author).1 h with
    ⟨dbID', row, t, hparse', hrow, _, _⟩
  have hdb : dbID = dbID' := by
    rw [hparse] at hparse'
    exact Option.some_inj.1 hparse'
  subst hdb
  have hpred := List.find?_some hrow
  have hmem := List.mem_of_find?_eq_some hrow
  exact List.any_eq_true.2 ⟨row, hmem, hpred⟩

/-- C6.  `CreatePR` postcondition: `AlreadyExists` on an id collision;
`NotFound` when the author or the author's team cannot be resolved; on
success the pull request is persisted `OPEN` with no merge timestamp and at
most 2 reviewers, each an active member of the author's team and distinct
from the author; and when no eligible candidate exists the call still
succeeds, with an empty reviewer set (freshness of the id sequence is the
store's serial-column invariant). -/
theorem createPR_postcondition (s : Store) (prID title authorID : String)
    (d : Nat → Nat) :
    (∀ pr₀, prGetByID s prID = .ok pr₀ →
      CreatePR s prID title authorID d = .error SvcError.PRExists) ∧
    (∀ e, prGetByID s prID = .error e →
      (e = "pull request not found" ∨ e = "invalid pull request ID") →
      userGetByID s authorID = .error "user not found" →
      CreatePR s prID title authorID d =
        .error (SvcError.NotFound ("user with id " ++ authorID))) ∧
    (∀ e author, prGetByID s prID = .error e →
      (e = "pull request not found" ∨ e = "invalid pull request ID") →
      userGetByID s authorID = .ok author →
      teamGetByName s author.TeamName = .error "team not found" →
      CreatePR s prID title authorID d =
        .error (SvcError.NotFound ("team with name " ++ author.TeamName))) ∧
    (∀ pr' s', CreatePR s prID title authorID d = .ok (pr', s') →
      pr'.Status = Status.OPEN ∧ pr'.MergedAt = none ∧
      pr'.AssignedReviewers.length ≤ 2 ∧
      (∀ author team, userGetByID s authorID = .ok author →
        teamGetByName s author.TeamName = .ok team →
        ∀ rid ∈ pr'.AssignedReviewers, rid ≠ authorID ∧
          ∃ u ∈ userGetByTeamID s team.id, u.ID = rid ∧ u.IsActive = true)) ∧
    (∀ e author team, prGetByID s prID = .error e →
      (e = "pull request not found" ∨ e = "invalid pull request ID") →
      userGetByID s authorID = .ok author →
      teamGetByName s author.TeamName = .ok team →
      ((userGetByTeamID s team.id).filter
        (fun u => u.IsActive && u.ID ≠ authorID)).isEmpty = true →
      s.prs.any (fun p => p.id == s.nextPrId) = false →
      ∃ pr' s', CreatePR s prID title authorID d = .ok (pr', s') ∧
        pr'.AssignedReviewers = []) := by
  refine ⟨fun pr₀ h => createPR_exists_fails s prID title authorID d pr₀ h,
    fun e hget he hauthor =>
      createPR_author_notFound s prID title authorID d e hget he hauthor,
    fun e author hget he hauthor hteam =>
      createPR_team_notFound s prID title authorID d e author hget he hauthor hteam,
    ?_, ?_⟩
  · intro pr' s' h
    rcases createPR_ok_elim s prID title authorID d pr' s' h with
      ⟨e, author, team, _, hauthor, hteam, hcreate⟩
    rcases prCreate_ok_elim s _ pr' s' hcreate with
      ⟨authorDbID, links, _, _, _, _, hpr', _⟩
    subst hpr'
    refine ⟨rfl, rfl, ?_, ?_⟩
    · show (SelectReviewers (userGetByTeamID s team.id) authorID 2 d).length ≤ 2
      exact SelectReviewers_length_le _ _ _ _
    · intro author' team' hauthor' hteam' rid hrid
      rw [hauthor] at hauthor'
      cases hauthor'
      rw [hteam] at hteam'
      cases hteam'
      have hrid2 : rid ∈ SelectReviewers (userGetByTeamID s team.id) authorID 2 d :=
        hrid
      rcases SelectReviewers_mem _ _ _ _ _ hrid2 with ⟨hne, u, hu, hid, hact⟩
      exact ⟨hne, u, hu, hid, hact⟩
  · intro e author team hget he hauthor hteam hempty hfresh
    rcases (userGetByID_ok_iff s authorID author).1 hauthor with
      ⟨dbID, row, t, hparse, hrow, ht, _⟩
    have hany := userGetByID_ok_any s authorID author dbID hauthor hparse
    have hsel : SelectReviewers (userGetByTeamID s team.id) authorID 2 d = [] :=
      SelectReviewers_no_eligible _ _ _ _ hempty
    rw [CreatePR, hget]
    dsimp only
    rw [if_neg (by rcases he with he | he <;> simp [he])]
    try dsimp only
    rw [hauthor]
    try dsimp only
    rw [hteam]
    try dsimp only
    rw [hsel, prCreate]
    simp only [hparse]
    rw [if_neg (by rw [hany]; simp)]
    rw [if_neg (by rw [hfresh]; simp)]
    try dsimp only
    rw [show insertReviewerLinks s.users s.nextPrId s.now [] [] = .ok [] from rfl]
    exact ⟨_, _, rfl, rfl⟩

/-- The pull request created by the empty-selection witness call. -/
def wC6PR : PullRequest :=
  { ID := "pr-2", Title := "t", AuthorID := "u1", Status := Status.OPEN,
    AssignedReviewers := [], CreatedAt := 7, MergedAt := none }

/-- The store resulting from the empty-selection witness call. -/
def wC6StoreAfter : Store :=
  { wMergeStore with
    prs := wMergeStore.prs ++ [{ id := 2, title := "t", authorId := 1,
                                 status := Status.OPEN, createdAt := 7,
                                 updatedAt := 7 }],
    nextPrId := 3 }

theorem createPR_postcondition_witness :
    (CreatePR wMergeStore "pr-9" "t" "u1" (fun _ => 0) =
        .ok (wC6PR, wC6StoreAfter) ∧
      wC6PR.Status = Status.OPEN ∧ wC6PR.MergedAt = none ∧
      wC6PR.AssignedReviewers.length ≤ 2) ∧
    (∃ pr' s', CreatePR wMergeStore "pr-9" "t" "u1" (fun _ => 0) = .ok (pr', s') ∧
      pr'.AssignedReviewers = []) :=
  ⟨⟨by decide, by decide, by decide, by decide⟩,
    (createPR_postcondition wMergeStore "pr-9" "t" "u1" (fun _ => 0)).2.2.2.2
      "pull request not found"
      { ID := "u1", Username := "Alice", TeamID := 1, TeamName := "backend",
        IsActive := true, CreatedAt := 0, UpdatedAt := some 0 }
      { id := 1, name := "backend", createdAt := 0, updatedAt := 0 }
      (by decide) (by decide) (by decide) (by decide) (by decide) (by decide)⟩

/-! ## ReassignReviewer elimination lemmas -/

theorem prReplaceReviewer_ok_iff (s : Store) (prID old new : String)
    (s₁ : Store) :
    prReplaceReviewer s prID old new = .ok s₁ ↔ ∃ prDbID oldDbID newDbID,
      prStringIDToInt prID = some prDbID ∧
      stringIDToInt old = some oldDbID ∧
      stringIDToInt new = some newDbID ∧
      s.reviewers.any (fun r =>
        (r.prId : Int) == prDbID && (r.reviewerId : Int) == oldDbID) = true ∧
      s.users.any (fun u => (u.id : Int) == newDbID) = true ∧
      ¬ (oldDbID ≠ newDbID ∧ s.reviewers.any (fun r =>
        (r.prId : Int) == prDbID && (r.reviewerId : Int) == newDbID) = true) ∧
      s₁ = { s with reviewers := s.reviewers.map fun r =>
               if (r.prId : Int) == prDbID && (r.reviewerId : Int) == oldDbID then
                 { r with reviewerId := newDbID.toNat }
               else r } := by
  constructor
  · intro h
    rw [prReplaceReviewer] at h
    split at h
    · exact absurd h (by simp)
    · rename_i prDbID hp
      split at h
      · exact absurd h (by simp)
      · rename_i oldDbID ho
        split at h
        · exact absurd h (by simp)
        · rename_i newDbID hn
          split at h
          · exact absurd h (by simp)
          · rename_i hassigned
            rw [not_not] at hassigned
            split at h
            · exact absurd h (by simp)
            · rename_i husers
              rw [not_not] at husers
              split at h
              · exact absurd h (by simp)
              · rename_i hdup
                simp only [Bool.and_eq_true, decide_eq_true_eq] at hdup
                cases h
                exact ⟨prDbID, oldDbID, newDbID, hp, ho, hn, hassigned,
                  husers, hdup, rfl⟩
  · rintro ⟨prDbID, oldDbID, newDbID, hp, ho, hn, hassigned, husers, hdup, hs⟩
    subst hs
    have hdupb : ¬ ((decide (oldDbID ≠ newDbID) && s.reviewers.any fun r =>
        (r.prId : Int) == prDbID && (r.reviewerId : Int) == newDbID) = true) := by
      simp only [Bool.and_eq_true, decide_eq_true_eq]
      exact hdup
    rw [prReplaceReviewer, hp, ho, hn]
    dsimp only
    rw [if_neg (by rw [hassigned]; simp), if_neg (by rw [husers]; simp),
      if_neg hdupb]

theorem reassign_ok_elim (s : Store) (prID oldReviewerID : String)
    (d : Nat → Nat) (updatedPR : PullRequest) (newR : String) (s₁ : Store)
    (h : ReassignReviewer s prID oldReviewerID d = .ok (updatedPR, newR, s₁)) :
    ∃ pr oldReviewer team rest,
      prGetByID s prID = .ok pr ∧
      pr.Status ≠ Status.MERGED ∧
      pr.AssignedReviewers.contains oldReviewerID = true ∧
      userGetByID s oldReviewerID = .ok oldReviewer ∧
      teamGetByName s oldReviewer.TeamName = .ok team ∧
      SelectReviewers (userGetByTeamID s team.id) oldReviewerID 1 d =
        newR :: rest ∧
      prReplaceReviewer s prID oldReviewerID newR = .ok s₁ ∧
      prGetByID s₁ prID = .ok updatedPR := by
  rw [ReassignReviewer] at h
  split at h
  · split at h <;> exact absurd h (by simp)
  · rename_i pr hget
    split at h
    · exact absurd h (by simp)
    · rename_i hmerged
      split at h
      · exact absurd h (by simp)
      · rename_i hassigned
        rw [not_not] at hassigned
        split at h
        · split at h <;> exact absurd h (by simp)
        · rename_i oldReviewer holdr
          split at h
          · split at h <;> exact absurd h (by simp)
          · rename_i team hteam
            dsimp only at h
            split at h
            · exact absurd h (by simp)
            · rename_i newR' rest hsel
              split at h
              · split at h <;> exact absurd h (by simp)
              · rename_i s' hreplace
                split at h
                · split at h <;> exact absurd h (by simp)
                · rename_i updated hget2
                  cases h
                  exact ⟨pr, oldReviewer, team, rest, hget, hmerged,
                    hassigned, holdr, hteam, hsel, hreplace, hget2⟩

/-- Elements of the directory view of a team are canonical renderings of the
underlying user rows. -/
theorem userGetByTeamID_mem_elim (s : Store) (teamID : Nat) (u : DUser)
    (h : u ∈ userGetByTeamID s teamID) :
    ∃ row ∈ s.users, row.teamId = teamID ∧ u.ID = intToStringID row.id ∧
      u.IsActive = row.isActive := by
  rw [userGetByTeamID] at h
  rcases List.mem_filterMap.1 h with ⟨row, hrow, hmap⟩
  rcases List.mem_filter.1 hrow with ⟨hmem, hteam⟩
  rcases Option.map_eq_some'.1 hmap with ⟨t, _, hu⟩
  refine ⟨row, hmem, by simpa using hteam, ?_, ?_⟩
  · rw [← hu]
  · rw [← hu]

/-- Membership in the stored reviewer link set renders into the read-back
reviewer id list. -/
theorem mem_reviewerStrings (s : Store) (dbID : Int) (r : ReviewerRow)
    (hr : r ∈ s.reviewers) (hpr : ((r.prId : Int) == dbID) = true)
    (husers : s.users.any (fun u => u.id == r.reviewerId) = true)
    (hprs : s.prs.any (fun p => (p.id : Int) == dbID) = true) :
    intToStringID r.reviewerId ∈ reviewerStrings s dbID := by
  rw [reviewerStrings]
  refine List.mem_filterMap.2 ⟨r, List.mem_filter.2 ⟨hr, hpr⟩, ?_⟩
  rw [husers, hprs]
  rfl

/-- Conversely, each read-back reviewer id is the canonical rendering of a
stored link row of that pull request. -/
theorem reviewerStrings_mem_elim (s : Store) (dbID : Int) (x : String)
    (h : x ∈ reviewerStrings s dbID) :
    ∃ r ∈ s.reviewers, ((r.prId : Int) == dbID) = true ∧
      x = intToStringID r.reviewerId ∧
      s.users.any (fun u => u.id == r.reviewerId) = true ∧
      s.prs.any (fun p => (p.id : Int) == dbID) = true := by
  rw [reviewerStrings] at h
  rcases List.mem_filterMap.1 h with ⟨r, hr, hmap⟩
  rcases List.mem_filter.1 hr with ⟨hmem, hpr⟩
  by_cases hc : (s.users.any (fun u => u.id == r.reviewerId)
      && s.prs.any (fun p => (p.id : Int) == dbID)) = true
  · rw [if_pos hc] at hmap
    rcases Bool.and_eq_true _ _ ▸ hc with ⟨h1, h2⟩
    exact ⟨r, hmem, hpr, (Option.some_inj.1 hmap).symm, h1, h2⟩
  · rw [if_neg hc] at hmap
    exact absurd hmap (by simp)

/-! ## Claim C1 (corrected) -/

/-- Counterexample roster: the author `u1` is an active member of the old
reviewer's team. -/
def cxC1Store : Store :=
  { teams := [{ id := 1, name := "backend", createdAt := 0, updatedAt := 0 }],
    users := [{ id := 1, name := "Author", teamId := 1, isActive := true,
                createdAt := 0, updatedAt := 0 },
              { id := 2, name := "Rev", teamId := 1, isActive := true,
                createdAt := 0, updatedAt := 0 }],
    prs := [{ id := 1, title := "t", authorId := 1, status := Status.OPEN,
              createdAt := 0, updatedAt := 0 }],
    reviewers := [{ prId := 1, reviewerId := 2, createdAt := 0 }],
    nextPrId := 2, now := 5 }

/-- The pull request read back after the counterexample reassignment: its
reviewer set is exactly `["u1"]` — the author. -/
def cxC1Updated : PullRequest :=
  { ID := "pr-1", Title := "t", AuthorID := "u1", Status := Status.OPEN,
    AssignedReviewers := ["u1"], CreatedAt := 0, MergedAt := none }

/-- The store after the counterexample reassignment. -/
def cxC1StoreAfter : Store :=
  { cxC1Store with reviewers := [{ prId := 1, reviewerId := 1, createdAt := 0 }] }

/-- C1 counterexample.  `ReassignReviewer` on `pr-1` (author `u1`, single
reviewer `u2`, both active members of team `backend`) succeeds and puts the
author into the reviewer set: the selector excludes only the old reviewer,
so the author is an eligible replacement.  The draw function is irrelevant
(the candidate set is a singleton), refuting the claim as stated. -/
theorem author_not_reviewer_counterexample :
    ReassignReviewer cxC1Store "pr-1" "u2" (fun _ => 0) =
      .ok (cxC1Updated, "u1", cxC1StoreAfter) ∧
    cxC1Updated.AuthorID = "u1" ∧
    cxC1Updated.AuthorID ∈ cxC1Updated.AssignedReviewers := by
  refine ⟨by decide, by decide, by decide⟩

/-- Elements of the reviewer list read back after a successful replacement:
each is either an element of the original read-back list or the canonical
rendering of the new reviewer's key. -/
theorem reviewerStrings_after_replace (s : Store) (prDbID oldDbID newDbID : Int)
    (x : String)
    (hx : x ∈ reviewerStrings
      { s with reviewers := s.reviewers.map fun r =>
          if (r.prId : Int) == prDbID && (r.reviewerId : Int) == oldDbID then
            { r with reviewerId := newDbID.toNat }
          else r } prDbID) :
    x ∈ reviewerStrings s prDbID ∨ x = intToStringID newDbID.toNat := by
  rcases reviewerStrings_mem_elim _ prDbID x hx with
    ⟨r', hr', hpr', hx', husers', hprs'⟩
  simp only at hr' husers' hprs'
  rcases List.mem_map.1 hr' with ⟨r, hr, hfr⟩
  by_cases hc : ((r.prId : Int) == prDbID && (r.reviewerId : Int) == oldDbID) = true
  · rw [if_pos hc] at hfr
    right
    rw [hx', ← hfr]
  · rw [if_neg hc] at hfr
    subst hfr
    left
    rw [hx']
    exact mem_reviewerStrings s prDbID r hr hpr' husers' hprs'

/-- C1 (amended).  No self-review at creation: the reviewer set returned by a
successful `CreatePR` never contains the author argument.  After a successful
`ReassignReviewer` on a pull request whose reviewer set does not contain its
author, the updated reviewer set still does not contain the author *provided
the author is not an active member of the old reviewer's team*; when the
author is an active member of that team, the selector (which excludes only
the old reviewer) may select the author, as the counterexample shows. -/
theorem author_not_reviewer_amended (s : Store) :
    (∀ prID title authorID d pr' s',
      CreatePR s prID title authorID d = .ok (pr', s') →
      authorID ∉ pr'.AssignedReviewers) ∧
    (∀ prID oldReviewerID d pr oldReviewer team updatedPR newR s₁,
      prGetByID s prID = .ok pr →
      pr.AuthorID ∉ pr.AssignedReviewers →
      userGetByID s oldReviewerID = .ok oldReviewer →
      teamGetByName s oldReviewer.TeamName = .ok team →
      (∀ u ∈ userGetByTeamID s team.id, u.ID = pr.AuthorID →
        u.IsActive = false) →
      ReassignReviewer s prID oldReviewerID d = .ok (updatedPR, newR, s₁) →
      pr.AuthorID ∉ updatedPR.AssignedReviewers) := by
  constructor
  · intro prID title authorID d pr' s' h hmem
    rcases createPR_ok_elim s prID title authorID d pr' s' h with
      ⟨e, author, team, _, _, _, hcreate⟩
    rcases prCreate_ok_elim s _ pr' s' hcreate with
      ⟨authorDbID, links, _, _, _, _, hpr', _⟩
    subst hpr'
    have hmem' : authorID ∈ SelectReviewers (userGetByTeamID s team.id)
        authorID 2 d := hmem
    exact absurd rfl (SelectReviewers_mem _ _ _ _ _ hmem').1
  · intro prID oldReviewerID d pr oldReviewer team updatedPR newR s₁
      hget hnotin holdr hteam hnoauthor h hmem
    rcases reassign_ok_elim s prID oldReviewerID d updatedPR newR s₁ h with
      ⟨pr₀, oldR₀, team₀, rest, hget₀, _, _, holdr₀, hteam₀, hsel, hreplace, hget₁⟩
    rw [hget] at hget₀
    cases hget₀
    rw [holdr] at holdr₀
    cases holdr₀
    rw [hteam] at hteam₀
    cases hteam₀
    rcases (prReplaceReviewer_ok_iff s prID oldReviewerID newR s₁).1 hreplace with
      ⟨prDbID, oldDbID, newDbID, hp, _, hn, _, _, _, hs₁⟩
    rcases (prGetByID_ok_iff s prID pr).1 hget with
      ⟨dbID, row, author, hparse, _, _, hpr⟩
    have hdb : prDbID = dbID := by
      rw [hparse] at hp
      exact (Option.some_inj.1 hp).symm
    rw [hdb] at hs₁
    rcases (prGetByID_ok_iff s₁ prID updatedPR).1 hget₁ with
      ⟨dbID₁, row₁, author₁, hparse₁, _, _, hupdated⟩
    have hdb₁ : dbID = dbID₁ := by
      rw [hparse] at hparse₁
      exact Option.some_inj.1 hparse₁
    rw [← hdb₁] at hupdated
    have hnewR : newR ∈ SelectReviewers (userGetByTeamID s team.id)
        oldReviewerID 1 d := by
      rw [hsel]
      simp
    rcases SelectReviewers_mem _ _ _ _ _ hnewR with ⟨_, u, hu, huid, huact⟩
    have hnewauthor : newR ≠ pr.AuthorID := by
      intro hcontra
      have := hnoauthor u hu (by rw [huid, hcontra])
      rw [huact] at this
      exact absurd this (by simp)
    rcases userGetByTeamID_mem_elim s team.id u hu with ⟨rowu, _, _, hurow, _⟩
    have hnewDb : newDbID = (rowu.id : Int) := by
      have : stringIDToInt newR = some (rowu.id : Int) := by
        rw [← huid, hurow]
        exact stringIDToInt_intToStringID rowu.id
      rw [hn] at this
      exact Option.some_inj.1 this
    have hrender : intToStringID newDbID.toNat = newR := by
      rw [hnewDb]
      rw [← huid, hurow]
      norm_num
    have hmem' : pr.AuthorID ∈ reviewerStrings s₁ dbID := by
      have : updatedPR.AssignedReviewers = reviewerStrings s₁ dbID := by
        rw [hupdated]
      rw [← this]
      exact hmem
    rw [hs₁] at hmem'
    rcases reviewerStrings_after_replace s dbID oldDbID newDbID _ hmem' with
      hold | hnew
    · apply hnotin
      have : pr.AssignedReviewers = reviewerStrings s dbID := by
        rw [hpr]
      rw [this]
      exact hold
    · rw [hrender] at hnew
      exact hnewauthor hnew.symm

/-- Witness store for the amended C1: the author `u1` is inactive, the old
reviewer `u2` and the candidate `u3` are active members of the team. -/
def wC1Store : Store :=
  { teams := [{ id := 1, name := "backend", createdAt := 0, updatedAt := 0 }],
    users := [{ id := 1, name := "Author", teamId := 1, isActive := false,
                createdAt := 0, updatedAt := 0 },
              { id := 2, name := "Rev", teamId := 1, isActive := true,
                createdAt := 0, updatedAt := 0 },
              { id := 3, name := "Cand", teamId := 1, isActive := true,
                createdAt := 0, updatedAt := 0 }],
    prs := [{ id := 1, title := "t", authorId := 1, status := Status.OPEN,
              createdAt := 0, updatedAt := 0 }],
    reviewers := [{ prId := 1, reviewerId := 2, createdAt := 0 }],
    nextPrId := 2, now := 5 }

/-- The pull request the amended C1 witness reads back: reviewer `u3`. -/
def wC1Updated : PullRequest :=
  { ID := "pr-1", Title := "t", AuthorID := "u1", Status := Status.OPEN,
    AssignedReviewers := ["u3"], CreatedAt := 0, MergedAt := none }

/-- The pull request the amended C1 witness starts from. -/
def wC1PR : PullRequest :=
  { ID := "pr-1", Title := "t", AuthorID := "u1", Status := Status.OPEN,
    AssignedReviewers := ["u2"], CreatedAt := 0, MergedAt := none }

/-- The old reviewer resolved by the amended C1 witness. -/
def wC1OldR : DUser :=
  { ID := "u2", Username := "Rev", TeamID := 1, TeamName := "backend",
    IsActive := true, CreatedAt := 0, UpdatedAt := some 0 }

theorem author_not_reviewer_amended_witness :
    (CreatePR wMergeStore "pr-9" "t" "u1" (fun _ => 0) =
        .ok (wC6PR, wC6StoreAfter) ∧
      "u1" ∉ wC6PR.AssignedReviewers) ∧
    (prGetByID wC1Store "pr-1" = .ok wC1PR ∧
      wC1PR.AuthorID ∉ wC1PR.AssignedReviewers ∧
      userGetByID wC1Store "u2" = .ok wC1OldR ∧
      teamGetByName wC1Store wC1OldR.TeamName =
        .ok { id := 1, name := "backend", createdAt := 0, updatedAt := 0 } ∧
      ReassignReviewer wC1Store "pr-1" "u2" (fun _ => 0) =
        .ok (wC1Updated, "u3",
          { wC1Store with
            reviewers := [{ prId := 1, reviewerId := 3, createdAt := 0 }] }) ∧
      wC1PR.AuthorID ∉ wC1Updated.AssignedReviewers) :=
  ⟨⟨by decide,
    (author_not_reviewer_amended wMergeStore).1 "pr-9" "t" "u1" (fun _ => 0)
      wC6PR wC6StoreAfter (by decide)⟩,
   ⟨by decide, by decide, by decide, by decide, by decide,
    (author_not_reviewer_amended wC1Store).2 "pr-1" "u2" (fun _ => 0) wC1PR
      wC1OldR { id := 1, name := "backend", createdAt := 0, updatedAt := 0 }
      wC1Updated "u3"
      { wC1Store with
        reviewers := [{ prId := 1, reviewerId := 3, createdAt := 0 }] }
      (by decide) (by decide) (by decide) (by decide) (by decide) (by decide)⟩⟩

/-! ## Claim C2 -/

theorem filterMap_ite_sublist (l : List α) (p : α → Bool) (g : α → β) :
    (l.filterMap fun a => if p a then some (g a) else none).Sublist (l.map g) := by
  induction l with
  | nil => simp
  | cons a t ih =>
    rw [List.filterMap_cons, List.map_cons]
    by_cases hc : p a = true
    · rw [if_pos hc]
      exact ih.cons₂ _
    · rw [if_neg hc]
      exact ih.cons _

theorem map_filterMap_sublist (l : List α) (g : α → Option β) (h : β → γ)
    (f : α → γ) (hg : ∀ a b, g a = some b → h b = f a) :
    ((l.filterMap g).map h).Sublist (l.map f) := by
  induction l with
  | nil => simp
  | cons a t ih =>
    rw [List.filterMap_cons, List.map_cons]
    cases hga : g a with
    | none => exact ih.cons _
    | some b =>
      rw [List.map_cons, hg a b hga]
      exact ih.cons₂ _

/-- Distinct user primary keys give a duplicate-free directory view of any
team. -/
theorem userGetByTeamID_ids_nodup (s : Store) (teamID : Nat)
    (h : (s.users.map (·.id)).Nodup) :
    ((userGetByTeamID s teamID).map (·.ID)).Nodup := by
  have hsub : ((userGetByTeamID s teamID).map (·.ID)).Sublist
      ((s.users.filter (fun u => u.teamId == teamID)).map
        (fun row => intToStringID row.id)) := by
    apply map_filterMap_sublist
    intro row u hrow
    rcases Option.map_eq_some'.1 hrow with ⟨t, _, hu⟩
    rw [← hu]
  have hsub2 : ((s.users.filter (fun u => u.teamId == teamID)).map
      (fun row => intToStringID row.id)).Sublist
      (s.users.map (fun row => intToStringID row.id)) :=
    (List.filter_sublist s.users).map _
  apply (hsub.trans hsub2).nodup
  have : s.users.map (fun row => intToStringID row.id) =
      (s.users.map (·.id)).map intToStringID := by
    rw [List.map_map]
    rfl
  rw [this]
  exact h.map intToStringID_injective

/-- The `UNIQUE (pull_request_id, reviewer_id)` constraint restricted to one
pull request: its link rows carry pairwise-distinct reviewer keys. -/
theorem pairs_nodup_filter (rows : List ReviewerRow)
    (h : (rows.map fun r => (r.prId, r.reviewerId)).Nodup) (i : Int) :
    ((rows.filter fun r => (r.prId : Int) == i).map (·.reviewerId)).Nodup := by
  induction rows with
  | nil => simp
  | cons r t ih =>
    simp only [List.map_cons, List.nodup_cons] at h
    rw [List.filter_cons]
    by_cases hc : ((r.prId : Int) == i) = true
    · rw [if_pos hc]
      simp only [List.map_cons, List.nodup_cons]
      refine ⟨?_, ih h.2⟩
      intro hmem
      rcases List.mem_map.1 hmem with ⟨r', hr', hid⟩
      rcases List.mem_filter.1 hr' with ⟨hr'mem, hc'⟩
      have hpr : r'.prId = r.prId := by
        have h1 : (r.prId : Int) = i := by exact_mod_cast beq_iff_eq.1 hc
        have h2 : (r'.prId : Int) = i := by exact_mod_cast beq_iff_eq.1 hc'
        have : (r'.prId : Int) = (r.prId : Int) := by rw [h1, h2]
        exact_mod_cast this
      apply h.1
      refine List.mem_map.2 ⟨r', hr'mem, ?_⟩
      rw [hpr, hid]
    · rw [if_neg hc]
      exact ih h.2

/-- Duplicate-free link keys give a duplicate-free read-back id list. -/
theorem reviewerStrings_nodup_of (s : Store) (dbID : Int)
    (h : ((s.reviewers.filter fun r => (r.prId : Int) == dbID).map
      (·.reviewerId)).Nodup) :
    (reviewerStrings s dbID).Nodup := by
  rw [reviewerStrings]
  refine List.Sublist.nodup
    (filterMap_ite_sublist (s.reviewers.filter fun r => (r.prId : Int) == dbID)
      (fun r => (s.users.any fun u => u.id == r.reviewerId)
        && s.prs.any fun p => (p.id : Int) == dbID)
      (fun r => intToStringID r.reviewerId)) ?_
  have : (s.reviewers.filter fun r => (r.prId : Int) == dbID).map
      (fun r => intToStringID r.reviewerId) =
      ((s.reviewers.filter fun r => (r.prId : Int) == dbID).map
        (·.reviewerId)).map intToStringID := by
    rw [List.map_map]
    rfl
  rw [this]
  exact h.map intToStringID_injective

/-- In-place replacement of one reviewer key by a key held by no row keeps
the key list duplicate-free. -/
theorem replace_ids_nodup (rows : List ReviewerRow) (oldDbID : Int) (m : Nat)
    (hnodup : (rows.map (·.reviewerId)).Nodup)
    (hnonew : ∀ r ∈ rows, ((r.reviewerId : Int) == (m : Int)) = false) :
    (rows.map fun r =>
      if (r.reviewerId : Int) == oldDbID then m else r.reviewerId).Nodup := by
  induction rows with
  | nil => simp
  | cons r t ih =>
    simp only [List.map_cons, List.nodup_cons] at hnodup ⊢
    refine ⟨?_, ih hnodup.2 (fun r' hr' => hnonew r' (by simp [hr']))⟩
    intro hmem
    rcases List.mem_map.1 hmem with ⟨r', hr', heq⟩
    by_cases hc : ((r.reviewerId : Int) == oldDbID) = true
    · rw [if_pos hc] at heq
      by_cases hc' : ((r'.reviewerId : Int) == oldDbID) = true
      · rw [if_pos hc'] at heq
        have : r'.reviewerId = r.reviewerId := by
          have h1 := beq_iff_eq.1 hc
          have h2 := beq_iff_eq.1 hc'
          have : (r'.reviewerId : Int) = (r.reviewerId : Int) := by rw [h1, h2]
          exact_mod_cast this
        exact hnodup.1 (List.mem_map.2 ⟨r', hr', this⟩)
      · rw [if_neg hc'] at heq
        have : ((r'.reviewerId : Int) == (m : Int)) = true := by
          rw [beq_iff_eq]
          exact_mod_cast heq
        rw [hnonew r' (by simp [hr'])] at this
        exact absurd this (by simp)
    · rw [if_neg hc] at heq
      by_cases hc' : ((r'.reviewerId : Int) == oldDbID) = true
      · rw [if_pos hc'] at heq
        have : ((r.reviewerId : Int) == (m : Int)) = true := by
          rw [beq_iff_eq]
          exact_mod_cast heq.symm
        rw [hnonew r (by simp)] at this
        exact absurd this (by simp)
      · rw [if_neg hc'] at heq
        exact hnodup.1 (List.mem_map.2 ⟨r', hr', heq⟩)

/-- The head of the one-element selection used by `ReassignReviewer` is the
canonical rendering of an active row of the resolved team. -/
theorem selector_pick_canonical (s : Store) (teamID : Nat) (ex : String)
    (d : Nat → Nat) (newR : String) (rest : List String)
    (hsel : SelectReviewers (userGetByTeamID s teamID) ex 1 d = newR :: rest) :
    ∃ m : Nat, newR = intToStringID m := by
  have hmem : newR ∈ SelectReviewers (userGetByTeamID s teamID) ex 1 d := by
    rw [hsel]
    simp
  rcases SelectReviewers_mem _ _ _ _ _ hmem with ⟨_, u, hu, huid, _⟩
  rcases userGetByTeamID_mem_elim s teamID u hu with ⟨row, _, _, hurow, _⟩
  exact ⟨row.id, by rw [← huid, hurow]⟩

/-- C2.  The reviewer set never contains duplicates.  At creation the
selected set is pairwise-distinct (given the `users` primary-key
constraint).  For every successful `ReassignReviewer` on a store satisfying
the `UNIQUE (pull_request_id, reviewer_id)` constraint, the read-back
reviewer set of the updated pull request is still pairwise-distinct, and the
replacement id can only coincide with an already-assigned reviewer id when
that id resolves to the very reviewer being replaced (the unique key makes
any other collision fail the call). -/
theorem reviewer_set_nodup (s : Store) :
    (∀ prID title authorID d pr' s',
      (s.users.map (·.id)).Nodup →
      CreatePR s prID title authorID d = .ok (pr', s') →
      pr'.AssignedReviewers.Nodup) ∧
    (∀ prID oldReviewerID d pr updatedPR newR s₁,
      (s.reviewers.map fun r => (r.prId, r.reviewerId)).Nodup →
      prGetByID s prID = .ok pr →
      ReassignReviewer s prID oldReviewerID d = .ok (updatedPR, newR, s₁) →
      updatedPR.AssignedReviewers.Nodup ∧
      (∀ rid ∈ pr.AssignedReviewers, newR = rid →
        stringIDToInt rid = stringIDToInt oldReviewerID)) := by
  constructor
  · intro prID title authorID d pr' s' husers h
    rcases createPR_ok_elim s prID title authorID d pr' s' h with
      ⟨e, author, team, _, _, _, hcreate⟩
    rcases prCreate_ok_elim s _ pr' s' hcreate with
      ⟨authorDbID, links, _, _, _, _, hpr', _⟩
    subst hpr'
    show (SelectReviewers (userGetByTeamID s team.id) authorID 2 d).Nodup
    exact SelectReviewers_nodup _ _ _ _ (userGetByTeamID_ids_nodup s team.id husers)
  · intro prID oldReviewerID d pr updatedPR newR s₁ huniq hget h
    rcases reassign_ok_elim s prID oldReviewerID d updatedPR newR s₁ h with
      ⟨pr₀, oldR₀, team₀, rest, hget₀, _, _, _, _, hsel, hreplace, hget₁⟩
    rw [hget] at hget₀
    cases hget₀
    rcases selector_pick_canonical s team₀.id oldReviewerID d newR rest hsel with
      ⟨m, hcanon⟩
    rcases (prReplaceReviewer_ok_iff s prID oldReviewerID newR s₁).1 hreplace with
      ⟨prDbID, oldDbID, newDbID, hp, ho, hn, _, _, hdup, hs₁⟩
    have hm : newDbID = (m : Int) := by
      have : stringIDToInt newR = some (m : Int) := by
        rw [hcanon]
        exact stringIDToInt_intToStringID m
      rw [hn] at this
      exact Option.some_inj.1 this
    rcases (prGetByID_ok_iff s prID pr).1 hget with
      ⟨dbID, row, author, hparse, _, _, hpr⟩
    have hdb : prDbID = dbID := by
      rw [hparse] at hp
      exact (Option.some_inj.1 hp).symm
    rw [hdb] at hs₁ hdup
    rcases (prGetByID_ok_iff s₁ prID updatedPR).1 hget₁ with
      ⟨dbID₁, row₁, author₁, hparse₁, _, _, hupdated⟩
    have hdb₁ : dbID = dbID₁ := by
      rw [hparse] at hparse₁
      exact Option.some_inj.1 hparse₁
    rw [← hdb₁] at hupdated
    constructor
    · have hassigned : updatedPR.AssignedReviewers = reviewerStrings s₁ dbID := by
        rw [hupdated]
      rw [hassigned]
      apply reviewerStrings_nodup_of
      rw [hs₁]
      simp only
      have hqf : ((fun r : ReviewerRow => ((r.prId : Int) == dbID)) ∘ fun r =>
          if (r.prId : Int) == dbID && (r.reviewerId : Int) == oldDbID then
            { r with reviewerId := newDbID.toNat }
          else r) = fun r : ReviewerRow => ((r.prId : Int) == dbID) := by
        funext r
        by_cases hc : ((r.prId : Int) == dbID && (r.reviewerId : Int) == oldDbID) = true
        · rw [Function.comp, if_pos hc]
        · rw [Function.comp, if_neg hc]
      rw [List.filter_map, hqf, List.map_map]
      have hmapeq : ((s.reviewers.filter fun r => (r.prId : Int) == dbID).map
          ((fun r : ReviewerRow => r.reviewerId) ∘ fun r =>
            if (r.prId : Int) == dbID && (r.reviewerId : Int) == oldDbID then
              { r with reviewerId := newDbID.toNat }
            else r)) =
          ((s.reviewers.filter fun r => (r.prId : Int) == dbID).map fun r =>
            if (r.reviewerId : Int) == oldDbID then m else r.reviewerId) := by
        apply List.map_congr_left
        intro r hr
        rcases List.mem_filter.1 hr with ⟨_, hq⟩
        by_cases hc : ((r.reviewerId : Int) == oldDbID) = true
        · rw [Function.comp]
          rw [if_pos (by rw [hq, hc]; rfl), if_pos hc]
          simp only
          rw [hm, Int.toNat_natCast]
        · rw [Function.comp]
          rw [if_neg (by rw [hq]; simpa using hc), if_neg hc]
      rw [hmapeq]
      by_cases hoe : oldDbID = newDbID
      · have hmap2 : ((s.reviewers.filter fun r => (r.prId : Int) == dbID).map
            fun r => if (r.reviewerId : Int) == oldDbID then m
                     else r.reviewerId) =
            ((s.reviewers.filter fun r => (r.prId : Int) == dbID).map
              (·.reviewerId)) := by
          apply List.map_congr_left
          intro r _
          by_cases hc : ((r.reviewerId : Int) == oldDbID) = true
          · rw [if_pos hc]
            have : (r.reviewerId : Int) = (m : Int) := by
              rw [beq_iff_eq.1 hc, hoe, hm]
            exact (by exact_mod_cast this : r.reviewerId = m).symm
          · rw [if_neg hc]
        rw [hmap2]
        exact pairs_nodup_filter s.reviewers huniq dbID
      · have hany : (s.reviewers.any fun r =>
            (r.prId : Int) == dbID && (r.reviewerId : Int) == newDbID) = false := by
          by_cases ha : (s.reviewers.any fun r =>
              (r.prId : Int) == dbID && (r.reviewerId : Int) == newDbID) = true
          · exact absurd ⟨hoe, ha⟩ hdup
          · exact Bool.not_eq_true _ ▸ ha
        apply replace_ids_nodup
        · exact pairs_nodup_filter s.reviewers huniq dbID
        · intro r hr
          rcases List.mem_filter.1 hr with ⟨hrmem, hq⟩
          by_cases hc : ((r.reviewerId : Int) == (m : Int)) = true
          · exfalso
            have : (s.reviewers.any fun r =>
                (r.prId : Int) == dbID && (r.reviewerId : Int) == newDbID) = true := by
              refine List.any_eq_true.2 ⟨r, hrmem, ?_⟩
              rw [hq, hm, hc]
              rfl
            rw [hany] at this
            exact absurd this (by simp)
          · exact Bool.not_eq_true _ ▸ hc
    · intro rid hrid hnewrid
      have hrid' : rid ∈ reviewerStrings s dbID := by
        have : pr.AssignedReviewers = reviewerStrings s dbID := by rw [hpr]
        rw [← this]
        exact hrid
      rcases reviewerStrings_mem_elim s dbID rid hrid' with
        ⟨r, hrmem, hq, hridr, _, _⟩
      have hridparse : stringIDToInt rid = some ((r.reviewerId : Int)) := by
        rw [hridr]
        exact stringIDToInt_intToStringID r.reviewerId
      have hnewparse : newDbID = (r.reviewerId : Int) := by
        have := hn
        rw [hnewrid, hridparse] at this
        exact (Option.some_inj.1 this).symm
      have hoe : oldDbID = newDbID := by
        by_cases hx : oldDbID = newDbID
        · exact hx
        · exact absurd ⟨hx, List.any_eq_true.2 ⟨r, hrmem,
            by rw [hq, ← hnewparse]; simp⟩⟩ hdup
      rw [hridparse, ho, ← hnewparse, hoe]

/-- Witness store for C2: two reviewers from the author's team, reassign one
to the only remaining active candidate. -/
def wC2Store : Store :=
  { teams := [{ id := 1, name := "backend", createdAt := 0, updatedAt := 0 }],
    users := [{ id := 1, name := "Author", teamId := 1, isActive := false,
                createdAt := 0, updatedAt := 0 },
              { id := 2, name := "Rev", teamId := 1, isActive := true,
                createdAt := 0, updatedAt := 0 },
              { id := 3, name := "Rev2", teamId := 1, isActive := true,
                createdAt := 0, updatedAt := 0 },
              { id := 4, name := "Cand", teamId := 1, isActive := true,
                createdAt := 0, updatedAt := 0 }],
    prs := [{ id := 1, title := "t", authorId := 1, status := Status.OPEN,
              createdAt := 0, updatedAt := 0 }],
    reviewers := [{ prId := 1, reviewerId := 2, createdAt := 0 },
                  { prId := 1, reviewerId := 4, createdAt := 0 }],
    nextPrId := 2, now := 5 }

/-- The pull request wC2 reads back before reassignment. -/
def wC2PR : PullRequest :=
  { ID := "pr-1", Title := "t", AuthorID := "u1", Status := Status.OPEN,
    AssignedReviewers := ["u2", "u4"], CreatedAt := 0, MergedAt := none }

/-- The pull request wC2 reads back after reassigning `u2` to `u3`. -/
def wC2Updated : PullRequest :=
  { ID := "pr-1", Title := "t", AuthorID := "u1", Status := Status.OPEN,
    AssignedReviewers := ["u3", "u4"], CreatedAt := 0, MergedAt := none }

theorem reviewer_set_nodup_witness :
    ((wC2Store.reviewers.map fun r => (r.prId, r.reviewerId)).Nodup ∧
      prGetByID wC2Store "pr-1" = .ok wC2PR ∧
      ReassignReviewer wC2Store "pr-1" "u2" (fun _ => 1) =
        .ok (wC2Updated, "u3",
          { wC2Store with
            reviewers := [{ prId := 1, reviewerId := 3, createdAt := 0 },
                          { prId := 1, reviewerId := 4, createdAt := 0 }] })) ∧
    (wC2Updated.AssignedReviewers.Nodup ∧
      (∀ rid ∈ wC2PR.AssignedReviewers, "u3" = rid →
        stringIDToInt rid = stringIDToInt "u2")) :=
  ⟨⟨by decide, by decide, by decide⟩,
    (reviewer_set_nodup wC2Store).2 "pr-1" "u2" (fun _ => 1) wC2PR wC2Updated
      "u3"
      { wC2Store with
        reviewers := [{ prId := 1, reviewerId := 3, createdAt := 0 },
                      { prId := 1, reviewerId := 4, createdAt := 0 }] }
      (by decide) (by decide) (by decide)⟩

/-! ## Claim C7 (corrected) -/

/-- Counterexample store: `pr-1` has reviewers `u2` and `u3`; the author `u1`
is inactive, so reassigning `u2` deterministically selects `u3` — who is
already assigned. -/
def cxC7Store : Store :=
  { teams := [{ id := 1, name := "backend", createdAt := 0, updatedAt := 0 }],
    users := [{ id := 1, name := "Author", teamId := 1, isActive := false,
                createdAt := 0, updatedAt := 0 },
              { id := 2, name := "Rev", teamId := 1, isActive := true,
                createdAt := 0, updatedAt := 0 },
              { id := 3, name := "Rev2", teamId := 1, isActive := true,
                createdAt := 0, updatedAt := 0 }],
    prs := [{ id := 1, title := "t", authorId := 1, status := Status.OPEN,
              createdAt := 0, updatedAt := 0 }],
    reviewers := [{ prId := 1, reviewerId := 2, createdAt := 0 },
                  { prId := 1, reviewerId := 3, createdAt := 0 }],
    nextPrId := 2, now := 5 }

/-- C7 counterexample.  Every failure condition of the claimed taxonomy is
absent — the pull request exists and is open, `u2` is assigned and resolves,
and the selector returns `u3` — yet the call does not succeed: the
`UNIQUE (pull_request_id, reviewer_id)` key rejects the replacement, which
the service propagates as an unclassified internal error. -/
theorem reassign_taxonomy_counterexample :
    prGetByID cxC7Store "pr-1" =
      .ok { ID := "pr-1", Title := "t", AuthorID := "u1",
            Status := Status.OPEN, AssignedReviewers := ["u2", "u3"],
            CreatedAt := 0, MergedAt := none } ∧
    SelectReviewers (userGetByTeamID cxC7Store 1) "u2" 1 (fun _ => 0) =
      ["u3"] ∧
    ReassignReviewer cxC7Store "pr-1" "u2" (fun _ => 0) =
      .error (SvcError.Internal
        "pq: duplicate key value violates unique constraint") := by
  refine ⟨by decide, by decide, by decide⟩

/-- After a successful link replacement all other tables are untouched, so
the pull request still reads back. -/
theorem prGetByID_after_replace (s : Store) (prID : String)
    (pr : PullRequest) (prDbID oldDbID : Int) (nid : Nat)
    (hget : prGetByID s prID = .ok pr) :
    ∃ pr₁, prGetByID
      { s with reviewers := s.reviewers.map fun r =>
          if (r.prId : Int) == prDbID && (r.reviewerId : Int) == oldDbID then
            { r with reviewerId := nid }
          else r } prID = .ok pr₁ := by
  rcases (prGetByID_ok_iff s prID pr).1 hget with
    ⟨dbID, row, author, hparse, hrow, hauthor, _⟩
  refine ⟨_, (prGetByID_ok_iff _ prID _).2 ⟨dbID, row, author, hparse, ?_, ?_, rfl⟩⟩
  · exact hrow
  · exact hauthor

/-- C7 (amended).  The `ReassignReviewer` failure taxonomy, checked in
order: `NotFound` when the pull request does not exist; `AlreadyMerged` when
it is merged; `NotAssigned` when the old reviewer is not currently in the
reviewer set; `NotFound` when the old reviewer does not resolve to a user;
`NoCandidate` when the selector over the old reviewer's team (excluding only
the old reviewer, limit 1) returns no one; `NotAssigned` when the
storage-level replace reports the old reviewer not actually linked.
Otherwise, *if the storage replace succeeds* the call returns the updated
pull request and a new reviewer drawn from the old reviewer's team; but when
the selected replacement is already linked to the pull request (and differs
from the old reviewer at the key level), the storage unique key fails the
replace and the call surfaces an unclassified internal error instead of
succeeding — the claim's unconditional "otherwise it succeeds" does not hold
on the code. -/
theorem reassign_failure_taxonomy (s : Store) (prID oldReviewerID : String)
    (d : Nat → Nat) :
    (prGetByID s prID = .error "pull request not found" →
      ReassignReviewer s prID oldReviewerID d =
        .error (SvcError.NotFound ("pull request with id " ++ prID))) ∧
    (∀ pr, prGetByID s prID = .ok pr → pr.Status = Status.MERGED →
      ReassignReviewer s prID oldReviewerID d = .error SvcError.PRMerged) ∧
    (∀ pr, prGetByID s prID = .ok pr → pr.Status ≠ Status.MERGED →
      pr.AssignedReviewers.contains oldReviewerID = false →
      ReassignReviewer s prID oldReviewerID d = .error SvcError.NotAssigned) ∧
    (∀ pr, prGetByID s prID = .ok pr → pr.Status ≠ Status.MERGED →
      pr.AssignedReviewers.contains oldReviewerID = true →
      userGetByID s oldReviewerID = .error "user not found" →
      ReassignReviewer s prID oldReviewerID d =
        .error (SvcError.NotFound ("user with id " ++ oldReviewerID))) ∧
    (∀ pr oldReviewer team, prGetByID s prID = .ok pr →
      pr.Status ≠ Status.MERGED →
      pr.AssignedReviewers.contains oldReviewerID = true →
      userGetByID s oldReviewerID = .ok oldReviewer →
      teamGetByName s oldReviewer.TeamName = .ok team →
      SelectReviewers (userGetByTeamID s team.id) oldReviewerID 1 d = [] →
      ReassignReviewer s prID oldReviewerID d = .error SvcError.NoCandidate) ∧
    (∀ pr oldReviewer team newR rest, prGetByID s prID = .ok pr →
      pr.Status ≠ Status.MERGED →
      pr.AssignedReviewers.contains oldReviewerID = true →
      userGetByID s oldReviewerID = .ok oldReviewer →
      teamGetByName s oldReviewer.TeamName = .ok team →
      SelectReviewers (userGetByTeamID s team.id) oldReviewerID 1 d =
        newR :: rest →
      prReplaceReviewer s prID oldReviewerID newR =
        .error "reviewer is not assigned to this PR" →
      ReassignReviewer s prID oldReviewerID d = .error SvcError.NotAssigned) ∧
    (∀ pr oldReviewer team newR rest s₁, prGetByID s prID = .ok pr →
      pr.Status ≠ Status.MERGED →
      pr.AssignedReviewers.contains oldReviewerID = true →
      userGetByID s oldReviewerID = .ok oldReviewer →
      teamGetByName s oldReviewer.TeamName = .ok team →
      SelectReviewers (userGetByTeamID s team.id) oldReviewerID 1 d =
        newR :: rest →
      prReplaceReviewer s prID oldReviewerID newR = .ok s₁ →
      ∃ updatedPR, ReassignReviewer s prID oldReviewerID d =
          .ok (updatedPR, newR, s₁) ∧
        newR ≠ oldReviewerID ∧
        ∃ u ∈ userGetByTeamID s team.id, u.ID = newR ∧ u.IsActive = true) ∧
    (∀ pr oldReviewer team newR rest e, prGetByID s prID = .ok pr →
      pr.Status ≠ Status.MERGED →
      pr.AssignedReviewers.contains oldReviewerID = true →
      userGetByID s oldReviewerID = .ok oldReviewer →
      teamGetByName s oldReviewer.TeamName = .ok team →
      SelectReviewers (userGetByTeamID s team.id) oldReviewerID 1 d =
        newR :: rest →
      prReplaceReviewer s prID oldReviewerID newR = .error e →
      e ≠ "reviewer is not assigned to this PR" →
      ReassignReviewer s prID oldReviewerID d =
        .error (SvcError.Internal e)) := by
  refine ⟨?_, ?_, ?_, ?_, ?_, ?_, ?_, ?_⟩
  · intro hget
    rw [ReassignReviewer, hget]
    simp
  · intro pr hget hm
    rw [ReassignReviewer, hget]
    simp only [hm, if_pos]
  · intro pr hget hm hc
    rw [ReassignReviewer, hget]
    dsimp only
    rw [if_neg hm, if_pos (by rw [hc]; simp)]
  · intro pr hget hm hc holdr
    rw [ReassignReviewer, hget]
    dsimp only
    rw [if_neg hm, if_neg (by rw [hc]; simp), holdr]
    simp
  · intro pr oldReviewer team hget hm hc holdr hteam hsel
    rw [ReassignReviewer, hget]
    dsimp only
    rw [if_neg hm, if_neg (by rw [hc]; simp), holdr]
    dsimp only
    rw [hteam]
    dsimp only
    rw [hsel]
  · intro pr oldReviewer team newR rest hget hm hc holdr hteam hsel hreplace
    rw [ReassignReviewer, hget]
    dsimp only
    rw [if_neg hm, if_neg (by rw [hc]; simp), holdr]
    dsimp only
    rw [hteam]
    dsimp only
    rw [hsel]
    dsimp only
    rw [hreplace]
    simp
  · intro pr oldReviewer team newR rest s₁ hget hm hc holdr hteam hsel hreplace
    have hmemsel : newR ∈ SelectReviewers (userGetByTeamID s team.id)
        oldReviewerID 1 d := by
      rw [hsel]
      simp
    rcases SelectReviewers_mem _ _ _ _ _ hmemsel with ⟨hne, u, hu, huid, huact⟩
    rcases (prReplaceReviewer_ok_iff s prID oldReviewerID newR s₁).1 hreplace
      with ⟨prDbID, oldDbID, newDbID, _, _, _, _, _, _, hs₁⟩
    rcases prGetByID_after_replace s prID pr prDbID oldDbID newDbID.toNat hget
      with ⟨pr₁, hget₁⟩
    refine ⟨pr₁, ?_, hne, u, hu, huid, huact⟩
    rw [ReassignReviewer, hget]
    dsimp only
    rw [if_neg hm, if_neg (by rw [hc]; simp), holdr]
    dsimp only
    rw [hteam]
    dsimp only
    rw [hsel]
    dsimp only
    rw [hreplace]
    dsimp only
    rw [← hs₁] at hget₁
    rw [hget₁]
  · intro pr oldReviewer team newR rest e hget hm hc holdr hteam hsel hreplace he
    rw [ReassignReviewer, hget]
    dsimp only
    rw [if_neg hm, if_neg (by rw [hc]; simp), holdr]
    dsimp only
    rw [hteam]
    dsimp only
    rw [hsel]
    dsimp only
    rw [hreplace]
    simp only [he, if_neg]
    simp [he]

/-- Witness store for the `NoCandidate` branch: the only other team member
is inactive. -/
def wNoCandStore : Store :=
  { teams := [{ id := 1, name := "backend", createdAt := 0, updatedAt := 0 }],
    users := [{ id := 1, name := "Author", teamId := 1, isActive := false,
                createdAt := 0, updatedAt := 0 },
              { id := 2, name := "Rev", teamId := 1, isActive := true,
                createdAt := 0, updatedAt := 0 }],
    prs := [{ id := 1, title := "t", authorId := 1, status := Status.OPEN,
              createdAt := 0, updatedAt := 0 }],
    reviewers := [{ prId := 1, reviewerId := 2, createdAt := 0 }],
    nextPrId := 2, now := 5 }

theorem reassign_failure_taxonomy_witness :
    (prGetByID cxC7Store "pr-9" = .error "pull request not found" ∧
      ReassignReviewer cxC7Store "pr-9" "u2" (fun _ => 0) =
        .error (SvcError.NotFound "pull request with id pr-9")) ∧
    (prGetByID wC1Store "pr-1" = .ok wC1PR ∧ wC1PR.Status ≠ Status.MERGED ∧
      wC1PR.AssignedReviewers.contains "u9" = false ∧
      ReassignReviewer wC1Store "pr-1" "u9" (fun _ => 0) =
        .error SvcError.NotAssigned) ∧
    (SelectReviewers (userGetByTeamID wNoCandStore 1) "u2" 1 (fun _ => 0) = [] ∧
      ReassignReviewer wNoCandStore "pr-1" "u2" (fun _ => 0) =
        .error SvcError.NoCandidate) ∧
    (prReplaceReviewer wC1Store "pr-1" "u2" "u3" =
        .ok { wC1Store with
          reviewers := [{ prId := 1, reviewerId := 3, createdAt := 0 }] } ∧
      ∃ updatedPR, ReassignReviewer wC1Store "pr-1" "u2" (fun _ => 0) =
          .ok (updatedPR, "u3",
            { wC1Store with
              reviewers := [{ prId := 1, reviewerId := 3, createdAt := 0 }] }) ∧
        "u3" ≠ "u2" ∧
        ∃ u ∈ userGetByTeamID wC1Store 1, u.ID = "u3" ∧ u.IsActive = true) ∧
    (prReplaceReviewer cxC7Store "pr-1" "u2" "u3" =
        .error "pq: duplicate key value violates unique constraint" ∧
      ReassignReviewer cxC7Store "pr-1" "u2" (fun _ => 0) =
        .error (SvcError.Internal
          "pq: duplicate key value violates unique constraint")) :=
  ⟨⟨by decide,
     (reassign_failure_taxonomy cxC7Store "pr-9" "u2" (fun _ => 0)).1 (by decide)⟩,
   ⟨by decide, by decide, by decide,
     (reassign_failure_taxonomy wC1Store "pr-1" "u9" (fun _ => 0)).2.2.1 wC1PR
       (by decide) (by decide) (by decide)⟩,
   ⟨by decide,
     (reassign_failure_taxonomy wNoCandStore "pr-1" "u2" (fun _ => 0)).2.2.2.2.1
       { ID := "pr-1", Title := "t", AuthorID := "u1", Status := Status.OPEN,
         AssignedReviewers := ["u2"], CreatedAt := 0, MergedAt := none }
       { ID := "u2", Username := "Rev", TeamID := 1, TeamName := "backend",
         IsActive := true, CreatedAt := 0, UpdatedAt := some 0 }
       { id := 1, name := "backend", createdAt := 0, updatedAt := 0 }
       (by decide) (by decide) (by decide) (by decide) (by decide) (by decide)⟩,
   ⟨by decide,
     (reassign_failure_taxonomy wC1Store "pr-1" "u2" (fun _ => 0)).2.2.2.2.2.2.1
       wC1PR wC1OldR { id := 1, name := "backend", createdAt := 0, updatedAt := 0 }
       "u3" []
       { wC1Store with
         reviewers := [{ prId := 1, reviewerId := 3, createdAt := 0 }] }
       (by decide) (by decide) (by decide) (by decide) (by decide) (by decide)
       (by decide)⟩,
   ⟨by decide,
     (reassign_failure_taxonomy cxC7Store "pr-1" "u2" (fun _ => 0)).2.2.2.2.2.2.2
       { ID := "pr-1", Title := "t", AuthorID := "u1", Status := Status.OPEN,
         AssignedReviewers := ["u2", "u3"], CreatedAt := 0, MergedAt := none }
       { ID := "u2", Username := "Rev", TeamID := 1, TeamName := "backend",
         IsActive := true, CreatedAt := 0, UpdatedAt := some 0 }
       { id := 1, name := "backend", createdAt := 0, updatedAt := 0 }
       "u3" [] "pq: duplicate key value violates unique constraint"
       (by decide) (by decide) (by decide) (by decide) (by decide) (by decide)
       (by decide) (by decide)⟩⟩

end AvitoPR
